import Mathlib

/-!
Verification development for the terminal arcade game in `src/main.py`.

The program is a single-threaded cooperative multitasking game: a fixed-rate
scheduler loop (`main`) resumes every coroutine in `coroutines` once per tick,
removing completed ones, while the gameplay coroutines mutate the shared
obstacle registry (`obstacles`), the hit-record list
(`obstacles_in_last_collisions`) and the `year` counter.

The embedding compiles each Python coroutine into an explicit state machine:
one `TaskState` constructor per suspension point (`await`), and `resume`
performs the code that runs between one suspension point and the next,
returning the mutated shared `World`, the follow-up state (`none` when the
coroutine returns, i.e. raises `StopIteration`), the coroutines it appended to
the global list, and the canvas side effects it performed.  Python floats are
modelled as rationals (the only literal speeds are 0.5 and -0.3 and no claim
depends on binary rounding of float sums), Python object identity for
`Obstacle` values is modelled by a `uid` field drawn from a fresh counter.

Helper modules of the repository that are not under `src/` (obstacles.py,
physics.py, game_scenario.py, tools.py, explosion.py) are modelled from the
spec where the claims need them; each such definition carries a doc comment
starting with `Modelled from the spec:`.
-/

namespace Starships

/-- Canvas and timing side effects a resumption performs.  Positions are kept
as rationals; the curses backend (an external collaborator per the spec) would
round them. -/
inductive Effect where
  | drawChar (row col : ℚ) (ch : Char)
  | drawFrame (row col : ℚ)
  | eraseFrame (row col : ℚ)
  | beep
  | render
  | sleepReal (seconds : ℚ)
deriving Repr, DecidableEq

/-- `TIC_TIMEOUT = 0.1` from `main.py`. -/
def TIC_TIMEOUT : ℚ := 1/10

/-- `TICS_PER_YEAR = 20` from `main.py`. -/
def TICS_PER_YEAR : Nat := 20

/-- `GUN_AVAILABLE_YEAR = 2020` from `main.py`. -/
def GUN_AVAILABLE_YEAR : Int := 2020

/-- `BORDER_LENGTH = 1` from `main.py`. -/
def BORDER_LENGTH : Int := 1

/-- `CAPTION_WINDOW_LENGTH_PART = 3` from `main.py`. -/
def CAPTION_WINDOW_LENGTH_PART : Int := 3

/-- Modelled from the spec: `explosion.py` is not under `src/`.  The spec says
the struck obstacle's task "triggers a timed explosion effect centered on its
current position"; the explosion coroutine is modelled as a fixed positive
number of suspensions, each redrawing the effect at the centre. -/
def EXPLOSION_TICS : Nat := 8

/-- An entry of the `obstacles` registry.  `obstacles.py` defines an
`Obstacle(row, column, rows_size, columns_size)` whose `row` is mutated as the
garbage falls; Python object identity (used by `list.remove` and the `in`
membership tests) is modelled by the `uid` field. -/
structure Obstacle where
  uid : Nat
  row : ℚ
  column : ℚ
  rows_size : Nat
  columns_size : Nat
deriving Repr, DecidableEq

/-- Half-open 1-D overlap of `[a, a+alen)` and `[b, b+blen)`. -/
def overlap1D (a : ℚ) (alen : Nat) (b : ℚ) (blen : Nat) : Bool :=
  decide (a < b + blen) && decide (b < a + alen)

/-- Modelled from the spec: `obstacles.py` (not under `src/`) supplies
`Obstacle.has_collision(obj_corner_row, obj_corner_column, obj_size_rows=1,
obj_size_columns=1)`; the spec describes it as a bounding-box overlap test
between the obstacle's rectangle and the given rectangle. -/
def has_collision (o : Obstacle) (objRow objCol : ℚ) (objRows objCols : Nat) : Bool :=
  overlap1D o.row o.rows_size objRow objRows && overlap1D o.column o.columns_size objCol objCols

/-- Modelled from the spec: `physics.py` (not under `src/`) supplies
`update_speed`; per spec section 4.9 it applies fixed friction and
acceleration per axis and caps the magnitude.  Representative constants
(friction 4/5, acceleration 1, cap 2); no claim depends on their values. -/
def update_speed (row_speed column_speed : ℚ) (rows_direction columns_direction : Int) :
    ℚ × ℚ :=
  let rs := row_speed * (4/5) + rows_direction
  let cs := column_speed * (4/5) + columns_direction
  (max (-2) (min rs 2), max (-2) (min cs 2))

/-- Modelled from the spec: `game_scenario.py` (not under `src/`) supplies
`get_garbage_delay_tics`; per spec section 4.10 it is a monotone
year-threshold table, `none` before the first threshold and a non-increasing
positive delay afterwards. -/
def get_garbage_delay_tics (year : Int) : Option Nat :=
  if year < 1961 then none
  else if year < 1969 then some 20
  else if year < 1981 then some 14
  else if year < 1995 then some 10
  else if year < 2010 then some 8
  else if year < 2020 then some 6
  else some 2

/-- Modelled from the spec: `game_scenario.py` (not under `src/`) supplies
`PHRASES`, a sparse year-to-flavour-text mapping used by the caption task. -/
def PHRASES (year : Int) : Option String :=
  if year = 1957 then some "First Sputnik"
  else if year = 1961 then some "Gagarin flew!"
  else if year = 2020 then some "Take the plasma gun! Shoot the garbage!"
  else none

/-- The shared mutable state of `main.py`: the canvas dimensions (fixed for
the process), the module-level lists `obstacles` and
`obstacles_in_last_collisions` (the latter by obstacle identity), the `year`
counter, a fresh supply for obstacle identities, and the streams standing for
the external collaborators (keyboard input for `read_controls`, the random
choices `fill_orbit_with_garbage` draws, the spaceship and game-over frame
sizes loaded from assets). -/
structure World where
  rows : Int
  cols : Int
  obstacles : List Obstacle
  obstacles_in_last_collisions : List Nat
  year : Int
  nextUid : Nat
  inputs : List (Int × Int × Bool)
  spawnChoices : List (Int × Nat × Nat)
  shipFrames : List (Nat × Nat)
  gameoverFrame : Nat × Nat
deriving Repr, DecidableEq

/-- One suspension point of each coroutine of `main.py`.  The `...Init` states
are freshly created coroutine objects whose body has not run yet (Python runs
a coroutine's body only from the first `send`). -/
inductive TaskState where
  | starBegin (row col : Int) (sym : Char) (offset : Nat)
  | starLoop (row col : Int) (sym : Char) (pending phase : Nat)
  | captionBegin
  | captionLoop (col : Int) (len : Nat)
  | yearBegin (tics_per_year : Nat)
  | yearLoop (tics_per_year : Nat) (pending : Nat)
  | orbitBegin
  | orbitLoop (pending : Nat)
  | garbageBegin (column : Int) (frameRows frameCols : Nat) (speed : ℚ)
  | garbageLoop (uid : Nat) (row : ℚ) (column : ℚ) (frameRows frameCols : Nat) (speed : ℚ)
  | garbageBoom (uid : Nat) (pending : Nat) (crow ccol : ℚ)
  | fireBegin (row col rows_speed columns_speed : ℚ)
  | fireCharged (row col rows_speed columns_speed : ℚ)
  | fireAimed (row col rows_speed columns_speed : ℚ)
  | fireLoop (row col rows_speed columns_speed : ℚ)
  | shipBegin (row col : ℚ)
  | shipLoop (row col row_speed column_speed : ℚ) (frameIdx : Nat)
  | gameoverBegin
  | gameoverLoop (row col : Int)
deriving Repr, DecidableEq

/-- Result of resuming one coroutine: the mutated shared state, the coroutine's
next suspension point (`none` when it returned), the coroutines it appended to
the global `coroutines` list, and the side effects it performed. -/
structure ResumeResult where
  world : World
  task : Option TaskState
  spawned : List TaskState
  effects : List Effect
deriving Repr, DecidableEq

/-- Blink durations of `draw_star`: normal 3, bold 5, normal 3, dim 20
(`tics_before_bold`, `tics_bold`, `tics_after_bold`, `tics_dim`). -/
def starDuration (phase : Nat) : Nat :=
  if phase % 4 = 0 then 3 else if phase % 4 = 1 then 5 else if phase % 4 = 2 then 3 else 20

/-- Caption text of `show_caption`: `Year {year}` plus the scenario phrase when
present. -/
def captionText (year : Int) : String :=
  match PHRASES year with
  | some p => "Year " ++ toString year ++ ". " ++ p
  | none => "Year " ++ toString year

/-- Caption column of `show_caption`:
`caption_window_ncols // 2 - len(caption_text) // 2`. -/
def captionColumn (w : World) (len : Nat) : Int :=
  (w.cols / CAPTION_WINDOW_LENGTH_PART) / 2 - (len : Int) / 2

/-- `read_controls` (an external collaborator): pops the next pending input
tuple, `(0, 0, false)` when no key was pressed since the last poll. -/
def readControls (w : World) : (Int × Int × Bool) × World :=
  match w.inputs with
  | [] => ((0, 0, false), w)
  | i :: rest => (i, { w with inputs := rest })

/-- The random column and garbage frame `fill_orbit_with_garbage` draws for a
spawn, taken from the choice stream. -/
def popSpawnChoice (w : World) : (Int × Nat × Nat) × World :=
  match w.spawnChoices with
  | [] => ((0, 1, 1), w)
  | c :: rest => (c, { w with spawnChoices := rest })

/-- The spaceship frame used on iteration `idx` of `run_spaceship`'s animation
cycle: `itertools.cycle` over each loaded frame repeated
`tics_between_animations = 2` times. -/
def shipFrameSize (w : World) (idx : Nat) : Nat × Nat :=
  w.shipFrames.getD ((idx / 2) % max 1 w.shipFrames.length) (1, 1)

/-- Lines 227-233 of `run_spaceship`: add the speed to the position, then clamp
with `max` against the lower border and `min` against
`max_coordinate - BORDER_LENGTH - frame_size`. -/
def shipClampPos (w : World) (row col row_speed column_speed : ℚ) (szR szC : Nat) : ℚ × ℚ :=
  let r := min (max (row + row_speed) (BORDER_LENGTH : ℚ)) (((w.rows - BORDER_LENGTH : Int) : ℚ) - szR)
  let c := min (max (col + column_speed) (BORDER_LENGTH : ℚ)) (((w.cols - BORDER_LENGTH : Int) : ℚ) - szC)
  (r, c)

/-- The body of one iteration of `run_spaceship`'s animation loop up to its
`await sleep()` (lines 222-241): poll controls, update the speed, move and
clamp the position, spawn a `draw_fire` coroutine when the fire button is
pressed and the year has reached `GUN_AVAILABLE_YEAR`, draw the frame and
suspend. -/
def shipBody (row col row_speed column_speed : ℚ) (idx : Nat) (w : World) : ResumeResult :=
  let (ctrl, w1) := readControls w
  let (rs, cs) := update_speed row_speed column_speed ctrl.1 ctrl.2.1
  let (szR, szC) := shipFrameSize w1 idx
  let (r, c) := shipClampPos w1 row col rs cs szR szC
  let spawned :=
    if ctrl.2.2 && decide (GUN_AVAILABLE_YEAR ≤ w1.year) then
      [TaskState.fireBegin r (c + (szC / 2 : Nat)) (-3/10) 0]
    else []
  ⟨w1, some (.shipLoop r c rs cs idx), spawned, [.drawFrame r c]⟩

/-- The head of `draw_fire`'s movement loop (lines 192-201): test the playfield
bounds, then scan the registry in order for the first obstacle colliding with
the current position; on a hit append its identity to
`obstacles_in_last_collisions` and return, otherwise draw the projectile glyph
and suspend. -/
def fireCheck (row col rows_speed columns_speed : ℚ) (w : World) : ResumeResult :=
  let sym : Char := if columns_speed ≠ 0 then '-' else '|'
  if 0 < row ∧ row < ((w.rows - BORDER_LENGTH : Int) : ℚ)
      ∧ 0 < col ∧ col < ((w.cols - BORDER_LENGTH : Int) : ℚ) then
    match w.obstacles.find? (fun o => has_collision o row col 1 1) with
    | some o =>
        ⟨{ w with obstacles_in_last_collisions := w.obstacles_in_last_collisions ++ [o.uid] },
          none, [], []⟩
    | none => ⟨w, some (.fireLoop row col rows_speed columns_speed), [], [.drawChar row col sym]⟩
  else ⟨w, none, [], []⟩

/-- Resume one coroutine of `main.py` from its current suspension point: run
the code up to the next `await` (or to the coroutine's return), mirroring the
source statement by statement. -/
def resume (st : TaskState) (w : World) : ResumeResult :=
  match st with
  | .starBegin row col sym offset =>
      -- draw dim, then `await sleep(offset_tics)`; with offset 0 the sleep
      -- does not suspend and the loop's first normal draw runs immediately.
      if offset = 0 then
        ⟨w, some (.starLoop row col sym 3 1), [], [.drawChar row col sym, .drawChar row col sym]⟩
      else
        ⟨w, some (.starLoop row col sym offset 0), [], [.drawChar row col sym]⟩
  | .starLoop row col sym pending phase =>
      if pending ≤ 1 then
        ⟨w, some (.starLoop row col sym (starDuration phase) ((phase + 1) % 4)), [],
          [.drawChar row col sym]⟩
      else
        ⟨w, some (.starLoop row col sym (pending - 1) phase), [], []⟩
  | .captionBegin =>
      let t := captionText w.year
      let c := captionColumn w t.length
      ⟨w, some (.captionLoop c t.length), [], [.drawFrame 1 c]⟩
  | .captionLoop col _len =>
      let t := captionText w.year
      let c := captionColumn w t.length
      ⟨w, some (.captionLoop c t.length), [], [.eraseFrame 1 col, .drawFrame 1 c]⟩
  | .yearBegin tics_per_year =>
      -- first resume enters `sleep(tics_per_year)`; in the source
      -- `tics_per_year` is always `TICS_PER_YEAR = 20` (a zero value would
      -- loop in the source without suspending; modelled as an idle yield).
      if tics_per_year = 0 then ⟨w, some (.yearBegin 0), [], []⟩
      else ⟨w, some (.yearLoop tics_per_year tics_per_year), [], []⟩
  | .yearLoop tics_per_year pending =>
      if pending ≤ 1 then
        ⟨{ w with year := w.year + 1 },
          some (if tics_per_year = 0 then .yearBegin 0
                else .yearLoop tics_per_year tics_per_year), [], []⟩
      else ⟨w, some (.yearLoop tics_per_year (pending - 1)), [], []⟩
  | .orbitBegin =>
      match get_garbage_delay_tics w.year with
      | some d =>
          let (choice, w1) := popSpawnChoice w
          ⟨w1, some (.orbitLoop d), [.garbageBegin choice.1 choice.2.1 choice.2.2 (1/2)], []⟩
      | none => ⟨w, some (.orbitLoop 1), [], []⟩
  | .orbitLoop pending =>
      if pending ≤ 1 then
        match get_garbage_delay_tics w.year with
        | some d =>
            let (choice, w1) := popSpawnChoice w
            ⟨w1, some (.orbitLoop d), [.garbageBegin choice.1 choice.2.1 choice.2.2 (1/2)], []⟩
        | none => ⟨w, some (.orbitLoop 1), [], []⟩
      else ⟨w, some (.orbitLoop (pending - 1)), [], []⟩
  | .garbageBegin column frameRows frameCols speed =>
      -- lines 146-153: clamp the column to [0, columns_number - 1], create the
      -- obstacle at row 0 and append it to the registry.
      let col : Int := min (max column 0) (w.cols - 1)
      let o : Obstacle := ⟨w.nextUid, 0, (col : ℚ), frameRows, frameCols⟩
      let w1 := { w with obstacles := w.obstacles ++ [o], nextUid := w.nextUid + 1 }
      if 0 < w.rows then
        -- enter the while loop: sync the row, draw, suspend at `await sleep()`.
        ⟨w1, some (.garbageLoop o.uid 0 (col : ℚ) frameRows frameCols speed), [],
          [.drawFrame 0 (col : ℚ)]⟩
      else
        -- degenerate canvas: the loop body never runs and the `finally`
        -- removes the obstacle before the coroutine returns.
        ⟨{ w1 with obstacles := w1.obstacles.eraseP (fun q => q.uid == o.uid) }, none, [], []⟩
  | .garbageLoop uid row column frameRows frameCols speed =>
      -- resumed at `await sleep()` inside the while loop (line 159).
      let erase := Effect.eraseFrame row column
      let row' := row + speed
      if uid ∈ w.obstacles_in_last_collisions then
        -- hit: consume the record, then `await explode(...)` suspends.
        let crow := row' + (frameRows / 2 : Nat)
        let ccol := column + (frameCols / 2 : Nat)
        ⟨{ w with obstacles_in_last_collisions := w.obstacles_in_last_collisions.erase uid },
          some (.garbageBoom uid EXPLOSION_TICS crow ccol), [], [erase]⟩
      else if row' < ((w.rows : Int) : ℚ) then
        -- loop again: sync the obstacle's row, draw, suspend.
        ⟨{ w with obstacles := w.obstacles.map (fun o => if o.uid == uid then { o with row := row' } else o) },
          some (.garbageLoop uid row' column frameRows frameCols speed), [],
          [erase, .drawFrame row' column]⟩
      else
        -- fell past the bottom: the `finally` removes the obstacle, return.
        ⟨{ w with obstacles := w.obstacles.eraseP (fun q => q.uid == uid) }, none, [], [erase]⟩
  | .garbageBoom uid pending crow ccol =>
      if pending ≤ 1 then
        -- explosion over; the `finally` removes the obstacle, return.
        ⟨{ w with obstacles := w.obstacles.eraseP (fun q => q.uid == uid) }, none, [], []⟩
      else ⟨w, some (.garbageBoom uid (pending - 1) crow ccol), [], [.drawFrame crow ccol]⟩
  | .fireBegin row col rows_speed columns_speed =>
      ⟨w, some (.fireCharged row col rows_speed columns_speed), [], [.drawChar row col '*']⟩
  | .fireCharged row col rows_speed columns_speed =>
      ⟨w, some (.fireAimed row col rows_speed columns_speed), [], [.drawChar row col 'O']⟩
  | .fireAimed row col rows_speed columns_speed =>
      -- erase the muzzle flash, take the first movement step, beep, enter the
      -- movement loop.
      let r := fireCheck (row + rows_speed) (col + columns_speed) rows_speed columns_speed w
      ⟨r.world, r.task, r.spawned, [.drawChar row col ' ', .beep] ++ r.effects⟩
  | .fireLoop row col rows_speed columns_speed =>
      -- resumed at `await sleep()` inside the movement loop: erase, move, loop.
      let r := fireCheck (row + rows_speed) (col + columns_speed) rows_speed columns_speed w
      ⟨r.world, r.task, r.spawned, [.drawChar row col ' '] ++ r.effects⟩
  | .shipBegin row col =>
      shipBody row col 0 0 0 w
  | .shipLoop row col row_speed column_speed idx =>
      -- resumed at `await sleep()` (line 241): erase the frame, then test every
      -- obstacle against the ship's bounding box; on the first hit record it,
      -- spawn `show_gameover` and return; otherwise run the next iteration.
      let (szR, szC) := shipFrameSize w idx
      match w.obstacles.find? (fun o => has_collision o row col szR szC) with
      | some o =>
          ⟨{ w with obstacles_in_last_collisions := w.obstacles_in_last_collisions ++ [o.uid] },
            none, [.gameoverBegin], [.eraseFrame row col]⟩
      | none =>
          let r := shipBody row col row_speed column_speed (idx + 1) w
          ⟨r.world, r.task, r.spawned, [.eraseFrame row col] ++ r.effects⟩
  | .gameoverBegin =>
      let r := w.rows / 2 - (w.gameoverFrame.1 : Int) / 2
      let c := w.cols / 2 - (w.gameoverFrame.2 : Int) / 2
      ⟨w, some (.gameoverLoop r c), [], [.drawFrame (r : ℚ) (c : ℚ)]⟩
  | .gameoverLoop row col =>
      ⟨w, some (.gameoverLoop row col), [], [.drawFrame (row : ℚ) (col : ℚ)]⟩

/-! ### The scheduler loop of `main` (lines 290-297)

The Python list `coroutines` holds coroutine objects; each object is a stable
identity carrying its own suspension state.  The model keeps the list as
`List (Nat × TaskState)` pairing a fresh identity with the state.  `findTask`,
`updTask` and `delTask` model dereferencing an object, the object's state
mutating as a side effect of `send`, and `coroutines.remove(coroutine)`
(removal of the first occurrence under object identity). -/

/-- Dereference the coroutine with identity `a` in the live list. -/
def findTask (a : Nat) : List (Nat × TaskState) → Option TaskState
  | [] => none
  | p :: rest => if p.1 = a then some p.2 else findTask a rest

/-- The suspension state of coroutine `a` advances to `st` as an effect of
`send`. -/
def updTask (a : Nat) (st : TaskState) (l : List (Nat × TaskState)) :
    List (Nat × TaskState) :=
  l.map (fun p => if p.1 = a then (a, st) else p)

/-- `coroutines.remove(coroutine)`: drop the first occurrence of identity `a`. -/
def delTask (a : Nat) : List (Nat × TaskState) → List (Nat × TaskState)
  | [] => []
  | p :: rest => if p.1 = a then rest else p :: delTask a rest

/-- The whole scheduler state: the live `coroutines` list, the shared globals,
and the supply of fresh coroutine identities. -/
structure Sched where
  live : List (Nat × TaskState)
  world : World
  nextId : Nat
deriving Repr, DecidableEq

/-- Result of a scheduler pass: the new scheduler state, the identities resumed
(in order), the identities that raised `StopIteration` and were removed, and
the accumulated side effects. -/
structure StepOut where
  sched : Sched
  resumed : List Nat
  completed : List Nat
  effects : List Effect
deriving Repr, DecidableEq

/-- Fresh identities paired with the coroutine objects a resumption appended
to the live list during its execution. -/
def spawnEntries (s : Sched) (sp : List TaskState) : List (Nat × TaskState) :=
  ((List.range sp.length).map (fun k => s.nextId + k)).zip sp

/-- `coroutine.send(None)` plus the `except StopIteration: coroutines.remove`
handler for the snapshot entry with identity `tid`: the coroutines the task
appended during execution join the end of the live list, then the task's own
entry is updated (still suspended) or removed (returned). -/
def resumeOne (tid : Nat) (s : Sched) : StepOut :=
  match findTask tid s.live with
  | none => ⟨s, [], [], []⟩
  | some st =>
      match resume st s.world with
      | ⟨w', some st', sp, effs⟩ =>
          ⟨⟨updTask tid st' (s.live ++ spawnEntries s sp), w', s.nextId + sp.length⟩,
            [tid], [], effs⟩
      | ⟨w', none, sp, effs⟩ =>
          ⟨⟨delTask tid (s.live ++ spawnEntries s sp), w', s.nextId + sp.length⟩,
            [tid], [tid], effs⟩

/-- `for coroutine in coroutines.copy(): ...` — resume each identity of the
tick-start snapshot in order. -/
def runPass (snapshot : List Nat) (s : Sched) : StepOut :=
  match snapshot with
  | [] => ⟨s, [], [], []⟩
  | tid :: rest =>
      let o1 := resumeOne tid s
      let o2 := runPass rest o1.sched
      ⟨o2.sched, o1.resumed ++ o2.resumed, o1.completed ++ o2.completed,
        o1.effects ++ o2.effects⟩

/-- One iteration of the `while True` loop in `main` (lines 290-297): snapshot
the live list, resume every snapshotted coroutine once, then
`canvas.refresh()` and `time.sleep(TIC_TIMEOUT)`. -/
def runTick (s : Sched) : StepOut :=
  let o := runPass (s.live.map Prod.fst) s
  ⟨o.sched, o.resumed, o.completed, o.effects ++ [Effect.render, Effect.sleepReal TIC_TIMEOUT]⟩

/-- The identities of the live coroutines, in list order. -/
def ids (s : Sched) : List Nat := s.live.map Prod.fst

/-- Scheduler well-formedness: coroutine identities are distinct (each list
entry is a distinct Python object) and below the fresh-identity supply. -/
def SchedWF (s : Sched) : Prop :=
  (ids s).Nodup ∧ ∀ i ∈ ids s, i < s.nextId

instance (s : Sched) : Decidable (SchedWF s) := by
  unfold SchedWF; infer_instance

/-! ### The `sleep` primitive (lines 37-40)

`async def sleep(tics=1)` runs `for _ in range(tics): await asyncio.sleep(0)`;
each `asyncio.sleep(0)` suspends the coroutine exactly once and has no other
effect. -/

/-- A single awaited suspension. -/
inductive AwaitEv where
  | suspend
deriving Repr, DecidableEq

/-- The trace of `sleep(tics)`: one suspension per iteration of
`for _ in range(tics)`. -/
def sleepTrace (tics : Nat) : List AwaitEv :=
  (List.range tics).map (fun _ => AwaitEv.suspend)

/-- Recognizer for the year-clock task (`handle_year`). -/
def isYearTask : TaskState → Bool
  | .yearBegin _ => true
  | .yearLoop _ _ => true
  | _ => false

/-- Recognizer for garbage-faller coroutines (`fly_garbage`), started or not. -/
def isGarbageTask : TaskState → Bool
  | .garbageBegin _ _ _ _ => true
  | .garbageLoop _ _ _ _ _ _ => true
  | .garbageBoom _ _ _ _ => true
  | _ => false

/-- Recognizer for projectile coroutines (`draw_fire`). -/
def isFireTask : TaskState → Bool
  | .fireBegin _ _ _ _ => true
  | .fireCharged _ _ _ _ => true
  | .fireAimed _ _ _ _ => true
  | .fireLoop _ _ _ _ => true
  | _ => false

/-- Recognizer for the spaceship controller (`run_spaceship`). -/
def isShipTask : TaskState → Bool
  | .shipBegin _ _ => true
  | .shipLoop _ _ _ _ _ => true
  | _ => false

/-- The obstacle identity owned by a started garbage-faller task: the obstacle
it registered and has not yet removed.  `garbageBegin` has not run yet and
owns none. -/
def garbUid : TaskState → Option Nat
  | .garbageLoop uid _ _ _ _ _ => some uid
  | .garbageBoom uid _ _ _ => some uid
  | _ => none

/-! ### Lemmas on the identity-keyed task list operations -/

theorem findTask_some_mem {a : Nat} {st : TaskState} :
    ∀ {l : List (Nat × TaskState)}, findTask a l = some st → (a, st) ∈ l := by
  intro l
  induction l with
  | nil => intro h; simp [findTask] at h
  | cons p rest ih =>
      intro h
      by_cases hp : p.1 = a
      · simp only [findTask, hp, if_pos] at h
        have : p = (a, st) := by
          obtain ⟨p1, p2⟩ := p
          simp at hp h
          simp [hp, h]
        exact this ▸ List.mem_cons_self _ _
      · simp only [findTask, hp, if_neg, not_false_iff] at h
        exact List.mem_cons_of_mem _ (ih h)

theorem findTask_of_mem {a : Nat} {st : TaskState} :
    ∀ {l : List (Nat × TaskState)}, (a, st) ∈ l → (l.map Prod.fst).Nodup →
      findTask a l = some st := by
  intro l
  induction l with
  | nil => intro h; simp at h
  | cons p rest ih =>
      intro h hnd
      simp only [List.map_cons, List.nodup_cons] at hnd
      rcases List.mem_cons.mp h with h1 | h1
      · simp [findTask, ← h1]
      · have hne : p.1 ≠ a := by
          intro he
          exact hnd.1 (he ▸ List.mem_map_of_mem Prod.fst h1)
        simp [findTask, hne]
        exact ih h1 hnd.2

theorem findTask_isSome_of_mem {a : Nat} {l : List (Nat × TaskState)}
    (h : a ∈ l.map Prod.fst) : ∃ st, findTask a l = some st := by
  induction l with
  | nil => simp at h
  | cons p rest ih =>
      by_cases hp : p.1 = a
      · exact ⟨p.2, by simp [findTask, hp]⟩
      · have h1 : a ∈ rest.map Prod.fst := by
          rcases List.mem_cons.mp h with h2 | h2
          · exact absurd h2.symm hp
          · exact h2
        rcases ih h1 with ⟨st, hst⟩
        exact ⟨st, by simp [findTask, hp, hst]⟩

theorem map_fst_updTask (a : Nat) (st : TaskState) (l : List (Nat × TaskState)) :
    (updTask a st l).map Prod.fst = l.map Prod.fst := by
  induction l with
  | nil => rfl
  | cons p rest ih =>
      simp only [updTask, List.map_cons] at ih ⊢
      by_cases hp : p.1 = a
      · simp [hp, ih]
      · simp [hp, ih]

theorem map_fst_delTask {a : Nat} :
    ∀ {l : List (Nat × TaskState)}, (l.map Prod.fst).Nodup →
      (delTask a l).map Prod.fst = (l.map Prod.fst).filter (fun i => decide (i ≠ a)) := by
  intro l
  induction l with
  | nil => intro _; rfl
  | cons p rest ih =>
      intro hnd
      simp only [List.map_cons, List.nodup_cons] at hnd
      by_cases hp : p.1 = a
      · subst hp
        have : ∀ i ∈ rest.map Prod.fst, i ≠ p.1 := fun i hi he => hnd.1 (he ▸ hi)
        simp [delTask, List.filter_cons]
        exact (List.filter_eq_self.mpr (by simpa using this)).symm
      · have hpa : (decide (p.1 ≠ a)) = true := by simp [hp]
        simp [delTask, hp, List.filter_cons, hpa, ih hnd.2]

theorem mem_updTask_of_ne {p : Nat × TaskState} {a : Nat} (st : TaskState)
    {l : List (Nat × TaskState)} (h : p ∈ l) (hne : p.1 ≠ a) : p ∈ updTask a st l := by
  induction l with
  | nil => simp at h
  | cons q rest ih =>
      rcases List.mem_cons.mp h with h1 | h1
      · subst h1
        simp [updTask, hne]
      · by_cases hq : q.1 = a <;> simp [updTask, hq] at ih ⊢ <;>
          exact Or.inr (by simpa [updTask] using ih h1)

theorem mem_delTask_of_ne {p : Nat × TaskState} {a : Nat}
    {l : List (Nat × TaskState)} (h : p ∈ l) (hne : p.1 ≠ a) : p ∈ delTask a l := by
  induction l with
  | nil => simp at h
  | cons q rest ih =>
      rcases List.mem_cons.mp h with h1 | h1
      · subst h1
        simp [delTask, hne]
      · by_cases hq : q.1 = a
        · simpa [delTask, hq] using h1
        · simpa [delTask, hq] using Or.inr (ih h1)

/-! ### Behaviour of one `send` inside the scheduler pass -/

theorem resumeOne_spec (tid : Nat) (s : Sched)
    (hnd : (ids s).Nodup) (hlt : ∀ i ∈ ids s, i < s.nextId) (hmem : tid ∈ ids s) :
    (resumeOne tid s).resumed = [tid]
    ∧ ((resumeOne tid s).completed = [] ∨ (resumeOne tid s).completed = [tid])
    ∧ s.nextId ≤ (resumeOne tid s).sched.nextId
    ∧ ids (resumeOne tid s).sched
        = (ids s).filter (fun i => decide (i ∉ (resumeOne tid s).completed))
          ++ List.range' s.nextId ((resumeOne tid s).sched.nextId - s.nextId)
    ∧ (ids (resumeOne tid s).sched).Nodup
    ∧ (∀ i ∈ ids (resumeOne tid s).sched, i < (resumeOne tid s).sched.nextId)
    ∧ (∀ p ∈ s.live, p.1 ≠ tid → p ∈ (resumeOne tid s).sched.live) := by
  have htid : tid < s.nextId := hlt tid hmem
  obtain ⟨st, hst⟩ := findTask_isSome_of_mem hmem
  have hids1 : ∀ (sp : List TaskState),
      (spawnEntries s sp).map Prod.fst = List.range' s.nextId sp.length := by
    intro sp
    unfold spawnEntries
    rw [List.map_fst_zip _ _ (by simp)]
    rw [List.range'_eq_map_range]
  rcases hres : resume st s.world with ⟨w', task, sp, effs⟩
  have hnewlt : ∀ i ∈ List.range' s.nextId sp.length, s.nextId ≤ i := by
    intro i hi
    exact (List.mem_range'_1.mp hi).1
  have hlive1 : (s.live ++ spawnEntries s sp).map Prod.fst
      = ids s ++ List.range' s.nextId sp.length := by
    rw [List.map_append, hids1]
    rfl
  have hnd1 : (ids s ++ List.range' s.nextId sp.length).Nodup := by
    refine List.Nodup.append hnd (List.nodup_range' _ _) ?_
    intro i hi hj
    exact absurd (hlt i hi) (not_lt.mpr (hnewlt i hj))
  have hboundall : ∀ i ∈ ids s ++ List.range' s.nextId sp.length,
      i < s.nextId + sp.length := by
    intro i hi
    rcases List.mem_append.mp hi with h1 | h1
    · exact lt_of_lt_of_le (hlt i h1) (Nat.le_add_right _ _)
    · exact (List.mem_range'_1.mp h1).2
  cases task with
  | some st' =>
      have hkey : resumeOne tid s
          = ⟨⟨updTask tid st' (s.live ++ spawnEntries s sp), w', s.nextId + sp.length⟩,
              [tid], [], effs⟩ := by
        simp only [resumeOne, hst, hres]
      rw [hkey]
      refine ⟨rfl, Or.inl rfl, Nat.le_add_right _ _, ?_, ?_, ?_, ?_⟩
      · show (updTask tid st' _).map Prod.fst = _
        rw [map_fst_updTask, hlive1]
        simp [Nat.add_sub_cancel_left]
      · show ((updTask tid st' _).map Prod.fst).Nodup
        rw [map_fst_updTask, hlive1]
        exact hnd1
      · intro i hi
        rw [show ids ⟨updTask tid st' (s.live ++ spawnEntries s sp), w', s.nextId + sp.length⟩
              = (updTask tid st' (s.live ++ spawnEntries s sp)).map Prod.fst from rfl,
            map_fst_updTask, hlive1] at hi
        exact hboundall i hi
      · intro p hp hne
        exact mem_updTask_of_ne st' (List.mem_append_left _ hp) hne
  | none =>
      have hkey : resumeOne tid s
          = ⟨⟨delTask tid (s.live ++ spawnEntries s sp), w', s.nextId + sp.length⟩,
              [tid], [tid], effs⟩ := by
        simp only [resumeOne, hst, hres]
      rw [hkey]
      have hnd1' : ((s.live ++ spawnEntries s sp).map Prod.fst).Nodup := by
        rw [hlive1]; exact hnd1
      refine ⟨rfl, Or.inr rfl, Nat.le_add_right _ _, ?_, ?_, ?_, ?_⟩
      · show (delTask tid _).map Prod.fst = _
        rw [map_fst_delTask hnd1', hlive1, List.filter_append]
        have h2 : (List.range' s.nextId sp.length).filter (fun i => decide (i ≠ tid))
            = List.range' s.nextId sp.length := by
          refine List.filter_eq_self.mpr ?_
          intro i hi
          have := hnewlt i hi
          simp only [decide_eq_true_eq]
          omega
        have h3 : (ids s).filter (fun i => decide (i ≠ tid))
            = (ids s).filter (fun i => decide (i ∉ ([tid] : List Nat))) := by
          refine List.filter_congr ?_
          intro i _
          simp
        rw [h2, h3]
        simp [Nat.add_sub_cancel_left]
      · show ((delTask tid _).map Prod.fst).Nodup
        rw [map_fst_delTask hnd1', hlive1]
        exact List.Nodup.filter _ hnd1
      · intro i hi
        rw [show ids ⟨delTask tid (s.live ++ spawnEntries s sp), w', s.nextId + sp.length⟩
              = (delTask tid (s.live ++ spawnEntries s sp)).map Prod.fst from rfl,
            map_fst_delTask hnd1', hlive1] at hi
        exact hboundall i (List.mem_of_mem_filter hi)
      · intro p hp hne
        exact mem_delTask_of_ne (List.mem_append_left _ hp) hne

/-- Master induction for the scheduler pass over a snapshot of distinct,
currently-live identities below the fresh supply. -/
theorem runPass_spec : ∀ (snapshot : List Nat) (s : Sched),
    (ids s).Nodup → (∀ i ∈ ids s, i < s.nextId) →
    snapshot.Nodup → (∀ i ∈ snapshot, i ∈ ids s) → (∀ i ∈ snapshot, i < s.nextId) →
    (runPass snapshot s).resumed = snapshot
    ∧ (∀ i ∈ (runPass snapshot s).completed, i ∈ snapshot)
    ∧ s.nextId ≤ (runPass snapshot s).sched.nextId
    ∧ ids (runPass snapshot s).sched
        = (ids s).filter (fun i => decide (i ∉ (runPass snapshot s).completed))
          ++ List.range' s.nextId ((runPass snapshot s).sched.nextId - s.nextId)
    ∧ (ids (runPass snapshot s).sched).Nodup
    ∧ (∀ i ∈ ids (runPass snapshot s).sched, i < (runPass snapshot s).sched.nextId) := by
  intro snapshot
  induction snapshot with
  | nil =>
      intro s hnd hlt _ _ _
      refine ⟨rfl, by simp [runPass], le_refl _, ?_, hnd, hlt⟩
      simp [runPass]
  | cons tid rest ih =>
      intro s hnd hlt hsnd hsmem hslt
      have hmem : tid ∈ ids s := hsmem tid (List.mem_cons_self _ _)
      obtain ⟨h1res, h1comp, h1next, h1ids, h1nd, h1lt, h1keep⟩ :=
        resumeOne_spec tid s hnd hlt hmem
      have hrest_nd : rest.Nodup := (List.nodup_cons.mp hsnd).2
      have htid_rest : tid ∉ rest := (List.nodup_cons.mp hsnd).1
      have hrest_mem : ∀ i ∈ rest, i ∈ ids (resumeOne tid s).sched := by
        intro i hi
        have hine : i ≠ tid := fun he => htid_rest (he ▸ hi)
        obtain ⟨p, hp, hpf⟩ := List.mem_map.mp (hsmem i (List.mem_cons_of_mem _ hi))
        have : p ∈ (resumeOne tid s).sched.live := h1keep p hp (by rw [hpf]; exact hine)
        exact hpf ▸ List.mem_map_of_mem Prod.fst this
      have hrest_lt : ∀ i ∈ rest, i < (resumeOne tid s).sched.nextId := by
        intro i hi
        exact lt_of_lt_of_le (hslt i (List.mem_cons_of_mem _ hi)) h1next
      obtain ⟨h2res, h2comp, h2next, h2ids, h2nd, h2lt⟩ :=
        ih (resumeOne tid s).sched h1nd h1lt hrest_nd hrest_mem hrest_lt
      have hstep : runPass (tid :: rest) s
          = ⟨(runPass rest (resumeOne tid s).sched).sched,
             (resumeOne tid s).resumed ++ (runPass rest (resumeOne tid s).sched).resumed,
             (resumeOne tid s).completed ++ (runPass rest (resumeOne tid s).sched).completed,
             (resumeOne tid s).effects ++ (runPass rest (resumeOne tid s).sched).effects⟩ := rfl
      rw [hstep]
      refine ⟨?_, ?_, le_trans h1next h2next, ?_, h2nd, h2lt⟩
      · simp [h1res, h2res]
      · intro i hi
        rcases List.mem_append.mp hi with h1 | h1
        · rcases h1comp with hc | hc
          · rw [hc] at h1; simp at h1
          · rw [hc] at h1
            simp at h1
            simp [h1]
        · exact List.mem_cons_of_mem _ (h2comp i h1)
      · show ids (runPass rest (resumeOne tid s).sched).sched = _
        rw [h2ids, h1ids, List.filter_append]
        have hr1 : (List.range' s.nextId ((resumeOne tid s).sched.nextId - s.nextId)).filter
            (fun i => decide (i ∉ (runPass rest (resumeOne tid s).sched).completed))
            = List.range' s.nextId ((resumeOne tid s).sched.nextId - s.nextId) := by
          refine List.filter_eq_self.mpr ?_
          intro i hi
          have hge : s.nextId ≤ i := (List.mem_range'_1.mp hi).1
          simp only [decide_eq_true_eq]
          intro hcon
          have := hslt i (List.mem_cons_of_mem _ (h2comp i hcon))
          omega
        rw [hr1]
        have hff : ((ids s).filter (fun i => decide (i ∉ (resumeOne tid s).completed))).filter
              (fun i => decide (i ∉ (runPass rest (resumeOne tid s).sched).completed))
            = (ids s).filter (fun i => decide (i ∉ (resumeOne tid s).completed
                ++ (runPass rest (resumeOne tid s).sched).completed)) := by
          rw [List.filter_filter]
          refine List.filter_congr ?_
          intro i _
          simp [List.mem_append, not_or, Bool.and_comm]
        rw [hff, List.append_assoc]
        have hrr : List.range' s.nextId ((resumeOne tid s).sched.nextId - s.nextId)
              ++ List.range' (resumeOne tid s).sched.nextId
                  ((runPass rest (resumeOne tid s).sched).sched.nextId
                    - (resumeOne tid s).sched.nextId)
            = List.range' s.nextId
                ((runPass rest (resumeOne tid s).sched).sched.nextId - s.nextId) := by
          have e1 : (resumeOne tid s).sched.nextId
              = s.nextId + ((resumeOne tid s).sched.nextId - s.nextId) := by omega
          have := List.range'_append s.nextId ((resumeOne tid s).sched.nextId - s.nextId)
            ((runPass rest (resumeOne tid s).sched).sched.nextId
              - (resumeOne tid s).sched.nextId) 1
          rw [one_mul, ← e1] at this
          rw [this]
          congr 1
          omega
        rw [hrr]

/-- C1.  One iteration of the scheduler loop of `main` (lines 290-297), from a
well-formed scheduler state: (i) the identities resumed are exactly the live
collection at tick start, in order, each exactly once; (ii) every identity
that reported completion was in the snapshot; (iii) the live collection
afterwards consists of the snapshot minus the completed tasks, in order,
followed by the identities spawned during the tick; (iv) the spawned
identities were not resumed during this tick (they become visible next tick);
(v) well-formedness is preserved; (vi) the tick's effects end with the render
and the fixed `TIC_TIMEOUT` sleep. -/
theorem scheduler_tick_spec (s : Sched) (h : SchedWF s) :
    (runTick s).resumed = ids s
    ∧ (∀ i ∈ (runTick s).completed, i ∈ ids s)
    ∧ ids (runTick s).sched
        = (ids s).filter (fun i => decide (i ∉ (runTick s).completed))
          ++ List.range' s.nextId ((runTick s).sched.nextId - s.nextId)
    ∧ (∀ i ∈ List.range' s.nextId ((runTick s).sched.nextId - s.nextId),
        i ∉ (runTick s).resumed ∧ i ∉ ids s)
    ∧ SchedWF (runTick s).sched
    ∧ (∃ fx, (runTick s).effects = fx ++ [Effect.render, Effect.sleepReal TIC_TIMEOUT]) := by
  obtain ⟨hnd, hlt⟩ := h
  obtain ⟨h1, h2, h3, h4, h5, h6⟩ :=
    runPass_spec (ids s) s hnd hlt hnd (fun i hi => hi) hlt
  have hsched : (runTick s).sched = (runPass (ids s) s).sched := rfl
  have hres : (runTick s).resumed = (runPass (ids s) s).resumed := rfl
  have hcomp : (runTick s).completed = (runPass (ids s) s).completed := rfl
  refine ⟨by rw [hres, h1], ?_, ?_, ?_, ?_, ?_⟩
  · intro i hi
    rw [hcomp] at hi
    exact h2 i hi
  · rw [hsched, hcomp, h4]
  · intro i hi
    rw [hsched] at hi
    have hge : s.nextId ≤ i := (List.mem_range'_1.mp hi).1
    constructor
    · rw [hres, h1]
      intro hcon
      exact absurd (hlt i hcon) (not_lt.mpr hge)
    · intro hcon
      exact absurd (hlt i hcon) (not_lt.mpr hge)
  · rw [hsched]
    exact ⟨h5, h6⟩
  · exact ⟨(runPass (ids s) s).effects, rfl⟩

/-! ### The obstacle registry invariant (claim about `fly_garbage`'s
`try`/`finally` protocol) -/

/-- The multiset of one optional obstacle identity. -/
def optM : Option Nat → Multiset Nat
  | none => 0
  | some u => {u}

/-- The obstacle identity owned by an optional follow-up task state. -/
def taskGarb : Option TaskState → Option Nat
  | none => none
  | some t => garbUid t

/-- The multiset of obstacle identities in the registry. -/
def regM (w : World) : Multiset Nat := ↑(w.obstacles.map Obstacle.uid)

theorem map_uid_eraseP (u : Nat) : ∀ (l : List Obstacle),
    (l.eraseP (fun o => o.uid == u)).map Obstacle.uid = (l.map Obstacle.uid).erase u := by
  intro l
  induction l with
  | nil => rfl
  | cons o rest ih =>
      by_cases h : o.uid = u
      · simp [List.eraseP_cons, List.erase_cons, h]
      · simp [List.eraseP_cons, List.erase_cons, h, ih]

theorem map_uid_update (u : Nat) (r : ℚ) : ∀ (l : List Obstacle),
    (l.map (fun o => if o.uid == u then { o with row := r } else o)).map Obstacle.uid
      = l.map Obstacle.uid := by
  intro l
  induction l with
  | nil => rfl
  | cons o rest ih =>
      by_cases h : o.uid = u <;>
        · simp [h, ih]
          intro a _
          split <;> rfl

/-- `shipBody` only consumes an input and can spawn a projectile: the
registry, the hit-record list, the year and the identity supply are untouched,
every coroutine it appends is a `draw_fire`, and it always suspends as
`shipLoop` with the same frame index. -/
theorem shipBody_frame (row col rs cs : ℚ) (idx : Nat) (w : World) :
    (shipBody row col rs cs idx w).world.obstacles = w.obstacles
    ∧ (shipBody row col rs cs idx w).world.obstacles_in_last_collisions
        = w.obstacles_in_last_collisions
    ∧ (shipBody row col rs cs idx w).world.year = w.year
    ∧ (shipBody row col rs cs idx w).world.nextUid = w.nextUid
    ∧ (∀ ts ∈ (shipBody row col rs cs idx w).spawned, garbUid ts = none ∧ isFireTask ts = true)
    ∧ (∃ r c rs2 cs2, (shipBody row col rs cs idx w).task
        = some (.shipLoop r c rs2 cs2 idx)) := by
  obtain ⟨rows, cols, obs, hits, year, nuid, inputs, spawns, frames, gof⟩ := w
  unfold shipBody readControls
  cases inputs <;> dsimp only <;> split_ifs <;> simp [garbUid, isFireTask]

/-- How one resumption changes the registry versus the resumed task's owned
obstacle: either both are untouched (up to the obstacle-row sync, which keeps
identities), or a `fly_garbage` coroutine starts and both gain the fresh
identity, or it exits and both lose its identity.  Spawned coroutines never
own an obstacle yet, and the fresh-identity supply never decreases. -/
theorem resume_registry (st : TaskState) (w : World) :
    (∀ ts ∈ (resume st w).spawned, garbUid ts = none)
    ∧ w.nextUid ≤ (resume st w).world.nextUid
    ∧ ((taskGarb (resume st w).task = garbUid st
          ∧ regM (resume st w).world = regM w)
       ∨ (garbUid st = none ∧ taskGarb (resume st w).task = some w.nextUid
          ∧ w.nextUid < (resume st w).world.nextUid
          ∧ regM (resume st w).world = regM w + {w.nextUid})
       ∨ (∃ u, garbUid st = some u ∧ taskGarb (resume st w).task = none
          ∧ regM (resume st w).world = (regM w).erase u)) := by
  cases st with
  | starBegin row col sym offset =>
      by_cases h : offset = 0 <;> simp [resume, h, taskGarb, garbUid, regM]
  | starLoop row col sym pending phase =>
      by_cases h : pending ≤ 1 <;> simp [resume, h, taskGarb, garbUid, regM]
  | captionBegin => simp [resume, taskGarb, garbUid, regM]
  | captionLoop col len => simp [resume, taskGarb, garbUid, regM]
  | yearBegin tpy =>
      by_cases h : tpy = 0 <;> simp [resume, h, taskGarb, garbUid, regM]
  | yearLoop tpy pending =>
      by_cases h : pending ≤ 1 <;>
        by_cases h0 : tpy = 0 <;> simp [resume, h, h0, taskGarb, garbUid, regM]
  | orbitBegin =>
      cases hd : get_garbage_delay_tics w.year <;>
        simp [resume, hd, taskGarb, garbUid, regM, popSpawnChoice] <;>
        cases w.spawnChoices <;> simp [garbUid]
  | orbitLoop pending =>
      by_cases h : pending ≤ 1
      · cases hd : get_garbage_delay_tics w.year <;>
          simp [resume, h, hd, taskGarb, garbUid, regM, popSpawnChoice] <;>
          cases w.spawnChoices <;> simp [garbUid]
      · simp [resume, h, taskGarb, garbUid, regM]
  | garbageBegin column fr fc sp =>
      by_cases h : 0 < w.rows
      · refine ⟨by simp [resume, h], by simp [resume, h], Or.inr (Or.inl ?_)⟩
        refine ⟨rfl, by simp [resume, h, taskGarb, garbUid], by simp [resume, h], ?_⟩
        show regM (resume (.garbageBegin column fr fc sp) w).world = _
        simp only [resume, h, if_true, regM]
        rw [List.map_append]
        rw [← Multiset.coe_add]
        simp
      · refine ⟨by simp [resume, h], by simp [resume, h],
          Or.inl ⟨by simp [resume, h, taskGarb, garbUid], ?_⟩⟩
        show regM (resume (.garbageBegin column fr fc sp) w).world = _
        simp only [resume, h, if_false, regM]
        rw [map_uid_eraseP]
        rw [List.map_append]
        simp only [List.map_cons, List.map_nil]
        rw [← Multiset.coe_erase]
        rw [← Multiset.coe_add, Multiset.coe_singleton]
        rw [add_comm, Multiset.singleton_add, Multiset.erase_cons_head]
  | garbageLoop uid row column fr fc sp =>
      by_cases hhit : uid ∈ w.obstacles_in_last_collisions
      · simp [resume, hhit, taskGarb, garbUid, regM]
      · by_cases hrow : row + sp < ((w.rows : Int) : ℚ)
        · refine ⟨by simp [resume, hhit, hrow], by simp [resume, hhit, hrow],
            Or.inl ⟨by simp [resume, hhit, hrow, taskGarb, garbUid], ?_⟩⟩
          show regM (resume (.garbageLoop uid row column fr fc sp) w).world = _
          simp only [resume, hhit, hrow, if_false, if_true, regM]
          rw [map_uid_update]
        · refine ⟨by simp [resume, hhit, hrow], by simp [resume, hhit, hrow],
            Or.inr (Or.inr ⟨uid, rfl, by simp [resume, hhit, hrow, taskGarb], ?_⟩)⟩
          show regM (resume (.garbageLoop uid row column fr fc sp) w).world = _
          simp only [resume, hhit, hrow, if_false, regM]
          rw [map_uid_eraseP, Multiset.coe_erase]
  | garbageBoom uid pending crow ccol =>
      by_cases h : pending ≤ 1
      · refine ⟨by simp [resume, h], by simp [resume, h],
          Or.inr (Or.inr ⟨uid, rfl, by simp [resume, h, taskGarb], ?_⟩)⟩
        show regM (resume (.garbageBoom uid pending crow ccol) w).world = _
        simp only [resume, h, if_true, regM]
        rw [map_uid_eraseP, Multiset.coe_erase]
      · simp [resume, h, taskGarb, garbUid, regM]
  | fireBegin row col rs cs => simp [resume, taskGarb, garbUid, regM]
  | fireCharged row col rs cs => simp [resume, taskGarb, garbUid, regM]
  | fireAimed row col rs cs =>
      simp only [resume]
      unfold fireCheck
      cases hf : w.obstacles.find? (fun o => has_collision o (row + rs) (col + cs) 1 1) <;>
        split_ifs <;> simp [hf, taskGarb, garbUid, regM]
  | fireLoop row col rs cs =>
      simp only [resume]
      unfold fireCheck
      cases hf : w.obstacles.find? (fun o => has_collision o (row + rs) (col + cs) 1 1) <;>
        split_ifs <;> simp [hf, taskGarb, garbUid, regM]
  | shipBegin row col =>
      obtain ⟨ho, hh, hy, hn, hsp, r2, c2, rs2, cs2, htask⟩ := shipBody_frame row col 0 0 0 w
      have hres : resume (.shipBegin row col) w = shipBody row col 0 0 0 w := rfl
      rw [hres]
      refine ⟨fun ts hts => (hsp ts hts).1, le_of_eq hn.symm,
        Or.inl ⟨?_, by simp [regM, ho]⟩⟩
      rw [htask]
      simp [taskGarb, garbUid]
  | shipLoop row col rs cs idx =>
      simp only [resume]
      cases hf : w.obstacles.find? (fun o => has_collision o row col
          (shipFrameSize w idx).1 (shipFrameSize w idx).2) with
      | some o => simp [hf, taskGarb, garbUid, regM]
      | none =>
          simp only [hf]
          obtain ⟨ho, hh, hy, hn, hsp, r2, c2, rs2, cs2, htask⟩ :=
            shipBody_frame row col rs cs (idx + 1) w
          refine ⟨fun ts hts => (hsp ts hts).1, le_of_eq hn.symm,
            Or.inl ⟨?_, by simp [regM, ho]⟩⟩
          rw [htask]
          simp [taskGarb, garbUid]
  | gameoverBegin =>
      exact ⟨fun ts hts => absurd hts (List.not_mem_nil ts), le_refl _, Or.inl ⟨rfl, rfl⟩⟩
  | gameoverLoop row col =>
      exact ⟨fun ts hts => absurd hts (List.not_mem_nil ts), le_refl _, Or.inl ⟨rfl, rfl⟩⟩

/-- The obstacle identities owned by the started garbage-faller coroutines of
a live list, in list order. -/
def gList (l : List (Nat × TaskState)) : List Nat := l.filterMap (fun p => garbUid p.2)

/-- The multiset of obstacle identities owned by live garbage-faller tasks. -/
def gTotal (s : Sched) : Multiset Nat := ↑(gList s.live)

/-- The registry invariant: a well-formed scheduler where the registry holds
exactly one obstacle per started live garbage-faller task (same identities,
no duplicates), all below the fresh-identity supply. -/
def RegistryInv (s : Sched) : Prop :=
  SchedWF s
  ∧ regM s.world = gTotal s
  ∧ (gTotal s).Nodup
  ∧ (∀ u ∈ gTotal s, u < s.world.nextUid)

instance (s : Sched) : Decidable (RegistryInv s) := by
  unfold RegistryInv; infer_instance

/-- The identity list of a resumed task's owned obstacle. -/
def optList : Option Nat → List Nat
  | none => []
  | some u => [u]

theorem gList_cons (p : Nat × TaskState) (l : List (Nat × TaskState)) :
    gList (p :: l) = optList (garbUid p.2) ++ gList l := by
  cases h : garbUid p.2 <;> simp [gList, List.filterMap_cons, h, optList]

theorem coe_optList (o : Option Nat) : (↑(optList o) : Multiset Nat) = optM o := by
  cases o <;> simp [optList, optM]

theorem optM_swap (o o' : Option Nat) (t : Multiset Nat) :
    optM o' + t + optM o = optM o + t + optM o' := by
  cases o <;> cases o' <;> simp only [optM, zero_add, add_zero] <;> abel

theorem updTask_of_not_mem {a : Nat} (st : TaskState) :
    ∀ {l : List (Nat × TaskState)}, a ∉ l.map Prod.fst → updTask a st l = l := by
  intro l
  induction l with
  | nil => intro _; rfl
  | cons p rest ih =>
      intro h
      simp only [List.map_cons, List.mem_cons, not_or] at h
      have hp : p.1 ≠ a := fun he => h.1 he.symm
      simp [updTask, hp]
      exact ih h.2

theorem delTask_of_not_mem {a : Nat} :
    ∀ {l : List (Nat × TaskState)}, a ∉ l.map Prod.fst → delTask a l = l := by
  intro l
  induction l with
  | nil => intro _; rfl
  | cons p rest ih =>
      intro h
      simp only [List.map_cons, List.mem_cons, not_or] at h
      have hp : p.1 ≠ a := fun he => h.1 he.symm
      simp [delTask, hp]
      exact ih h.2

theorem gList_updTask {tid : Nat} {st : TaskState} (st' : TaskState) :
    ∀ {l : List (Nat × TaskState)}, (l.map Prod.fst).Nodup → (tid, st) ∈ l →
      (↑(gList (updTask tid st' l)) : Multiset Nat) + optM (garbUid st)
        = ↑(gList l) + optM (garbUid st') := by
  intro l
  induction l with
  | nil => intro _ h; simp at h
  | cons p rest ih =>
      intro hnd hmem
      simp only [List.map_cons, List.nodup_cons] at hnd
      by_cases hp : p.1 = tid
      · have hpst : p = (tid, st) := by
          rcases List.mem_cons.mp hmem with h1 | h1
          · exact h1.symm
          · exact absurd (hp ▸ List.mem_map_of_mem Prod.fst h1) hnd.1
        subst hpst
        have hrest : updTask tid st' rest = rest :=
          updTask_of_not_mem st' (by simpa using hnd.1)
        show (↑(gList ((if (tid, st).1 = tid then (tid, st') else (tid, st))
            :: updTask tid st' rest)) : Multiset Nat) + _ = _
        rw [if_pos rfl, hrest, gList_cons, gList_cons]
        push_cast [← Multiset.coe_add, coe_optList]
        exact optM_swap (garbUid st) (garbUid st') _
      · have h1 : (tid, st) ∈ rest := by
          rcases List.mem_cons.mp hmem with h2 | h2
          · exact absurd (congrArg Prod.fst h2.symm) hp
          · exact h2
        show (↑(gList ((if p.1 = tid then (tid, st') else p) :: updTask tid st' rest))
            : Multiset Nat) + _ = _
        rw [if_neg hp, gList_cons, gList_cons]
        push_cast [← Multiset.coe_add]
        have := ih hnd.2 h1
        rw [add_assoc, add_assoc, this]

theorem gList_delTask {tid : Nat} {st : TaskState} :
    ∀ {l : List (Nat × TaskState)}, (l.map Prod.fst).Nodup → (tid, st) ∈ l →
      (↑(gList (delTask tid l)) : Multiset Nat) + optM (garbUid st) = ↑(gList l) := by
  intro l
  induction l with
  | nil => intro _ h; simp at h
  | cons p rest ih =>
      intro hnd hmem
      simp only [List.map_cons, List.nodup_cons] at hnd
      by_cases hp : p.1 = tid
      · have hpst : p = (tid, st) := by
          rcases List.mem_cons.mp hmem with h1 | h1
          · exact h1.symm
          · exact absurd (hp ▸ List.mem_map_of_mem Prod.fst h1) hnd.1
        subst hpst
        show (↑(gList (delTask tid ((tid, st) :: rest))) : Multiset Nat) + _ = _
        rw [show delTask tid ((tid, st) :: rest) = rest by simp [delTask]]
        rw [gList_cons]
        push_cast [← Multiset.coe_add, coe_optList]
        exact add_comm _ _
      · have h1 : (tid, st) ∈ rest := by
          rcases List.mem_cons.mp hmem with h2 | h2
          · exact absurd (congrArg Prod.fst h2.symm) hp
          · exact h2
        show (↑(gList (delTask tid (p :: rest))) : Multiset Nat) + _ = _
        rw [show delTask tid (p :: rest) = p :: delTask tid rest by simp [delTask, hp]]
        rw [gList_cons, gList_cons]
        push_cast [← Multiset.coe_add]
        rw [add_assoc, ih hnd.2 h1]

theorem gList_spawnEntries {s : Sched} {sp : List TaskState}
    (h : ∀ ts ∈ sp, garbUid ts = none) : gList (spawnEntries s sp) = [] := by
  rw [gList, List.filterMap_eq_nil]
  intro p hp
  exact h p.2 (List.of_mem_zip hp).2

/-- One `send` preserves the registry invariant: no matter which coroutine of
the live list is resumed, afterwards the registry still holds exactly the
identities owned by started live garbage-faller tasks, without duplicates and
below the (non-decreasing) fresh supply. -/
theorem resumeOne_registry (tid : Nat) (s : Sched) (hinv : RegistryInv s) :
    RegistryInv (resumeOne tid s).sched := by
  obtain ⟨⟨hnd, hlt⟩, hreg, hnodup, hfresh⟩ := hinv
  cases hfind : findTask tid s.live with
  | none =>
      have : (resumeOne tid s).sched = s := by
        unfold resumeOne
        rw [hfind]
      rw [this]
      exact ⟨⟨hnd, hlt⟩, hreg, hnodup, hfresh⟩
  | some st =>
      have hmempair : (tid, st) ∈ s.live := findTask_some_mem hfind
      have hmem : tid ∈ ids s := by
        have := List.mem_map_of_mem Prod.fst hmempair
        exact this
      obtain ⟨_, _, _, _, h5, h6, _⟩ := resumeOne_spec tid s hnd hlt hmem
      obtain ⟨hspawn, hnext, htri⟩ := resume_registry st s.world
      rcases hres : resume st s.world with ⟨w', task, sp, effs⟩
      rw [hres] at hspawn hnext htri
      simp only at hspawn hnext htri
      have hfst : (spawnEntries s sp).map Prod.fst = List.range' s.nextId sp.length := by
        unfold spawnEntries
        rw [List.map_fst_zip _ _ (by simp)]
        rw [List.range'_eq_map_range]
      have hnd1 : ((s.live ++ spawnEntries s sp).map Prod.fst).Nodup := by
        rw [List.map_append, hfst]
        refine List.Nodup.append hnd (List.nodup_range' _ _) ?_
        intro i hi hj
        exact absurd (hlt i hi) (not_lt.mpr (List.mem_range'_1.mp hj).1)
      have hmem1 : (tid, st) ∈ s.live ++ spawnEntries s sp := List.mem_append_left _ hmempair
      have hgsp : gList (spawnEntries s sp) = [] := gList_spawnEntries hspawn
      have hglist1 : gList (s.live ++ spawnEntries s sp) = gList s.live := by
        rw [gList, List.filterMap_append, ← gList, ← gList, hgsp, List.append_nil]
      cases task with
      | some st' =>
          have hkey : resumeOne tid s
              = ⟨⟨updTask tid st' (s.live ++ spawnEntries s sp), w', s.nextId + sp.length⟩,
                  [tid], [], effs⟩ := by
            simp only [resumeOne, hfind, hres]
          have hup := gList_updTask st' hnd1 hmem1
          rw [hglist1] at hup
          rw [hkey] at h5 h6 ⊢
          simp only at h5 h6 ⊢
          refine ⟨⟨h5, h6⟩, ?_⟩
          have hg' : (↑(gList (updTask tid st' (s.live ++ spawnEntries s sp))) : Multiset Nat)
                + optM (garbUid st) = gTotal s + optM (garbUid st') := by
            rw [hup]; rfl
          simp only [taskGarb] at htri
          rcases htri with ⟨hsame, hM⟩ | ⟨hnone, hnew, hlt2, hM⟩ | ⟨u, hsome, hcon, hMw⟩
          · rw [hsame] at hg'
            have hGT : gTotal ⟨updTask tid st' (s.live ++ spawnEntries s sp), w',
                s.nextId + sp.length⟩
                = gTotal s := add_right_cancel hg'
            refine ⟨?_, ?_, ?_⟩
            · show regM w' = _
              rw [hM, hreg]
              exact hGT.symm
            · rw [show gTotal ⟨updTask tid st' (s.live ++ spawnEntries s sp), w',
                s.nextId + sp.length⟩ = gTotal s from hGT]
              exact hnodup
            · intro u hu
              rw [show gTotal ⟨updTask tid st' (s.live ++ spawnEntries s sp), w',
                s.nextId + sp.length⟩ = gTotal s from hGT] at hu
              exact lt_of_lt_of_le (hfresh u hu) hnext
          · rw [hnone, hnew] at hg'
            simp only [optM, add_zero] at hg'
            have hGT : gTotal ⟨updTask tid st' (s.live ++ spawnEntries s sp), w',
                s.nextId + sp.length⟩
                = gTotal s + {s.world.nextUid} := hg'
            have hfreshu : s.world.nextUid ∉ gTotal s := fun hc =>
              absurd (hfresh _ hc) (lt_irrefl _)
            refine ⟨?_, ?_, ?_⟩
            · show regM w' = _
              rw [hM, hreg]
              exact hGT.symm
            · rw [show gTotal ⟨updTask tid st' (s.live ++ spawnEntries s sp), w',
                s.nextId + sp.length⟩ = gTotal s + {s.world.nextUid} from hGT]
              rw [add_comm, Multiset.singleton_add]
              exact Multiset.nodup_cons.mpr ⟨hfreshu, hnodup⟩
            · intro u hu
              rw [show gTotal ⟨updTask tid st' (s.live ++ spawnEntries s sp), w',
                s.nextId + sp.length⟩ = gTotal s + {s.world.nextUid} from hGT] at hu
              rcases Multiset.mem_add.mp hu with h1 | h1
              · exact lt_of_lt_of_le (hfresh u h1) (le_of_lt hlt2)
              · rw [Multiset.mem_singleton.mp h1]
                exact hlt2
          · rw [hsome, hcon] at hg'
            simp only [optM, add_zero] at hg'
            have hGT : gTotal ⟨updTask tid st' (s.live ++ spawnEntries s sp), w',
                s.nextId + sp.length⟩ + {u}
                = gTotal s := hg'
            refine ⟨?_, ?_, ?_⟩
            · show regM w' = _
              rw [hMw, hreg, ← hGT, add_comm, Multiset.singleton_add,
                Multiset.erase_cons_head]
            · refine Multiset.nodup_of_le ?_ hnodup
              rw [← hGT]
              exact Multiset.le_add_right _ _
            · intro v hv
              have hvin : v ∈ gTotal s := by
                rw [← hGT]
                exact Multiset.mem_add.mpr (Or.inl hv)
              exact lt_of_lt_of_le (hfresh v hvin) hnext
      | none =>
          have hkey : resumeOne tid s
              = ⟨⟨delTask tid (s.live ++ spawnEntries s sp), w', s.nextId + sp.length⟩,
                  [tid], [tid], effs⟩ := by
            simp only [resumeOne, hfind, hres]
          have hdel := gList_delTask hnd1 hmem1
          rw [hglist1] at hdel
          rw [hkey] at h5 h6 ⊢
          simp only at h5 h6 ⊢
          refine ⟨⟨h5, h6⟩, ?_⟩
          have hg' : (↑(gList (delTask tid (s.live ++ spawnEntries s sp))) : Multiset Nat)
                + optM (garbUid st) = gTotal s := by
            rw [hdel]; rfl
          simp only [taskGarb] at htri
          rcases htri with ⟨hsame, hM⟩ | ⟨hz1, hnew, hz2, hz3⟩ | ⟨u, hsome, hz4, hM⟩
          · rw [← hsame] at hg'
            simp only [optM, add_zero] at hg'
            have hGT : gTotal ⟨delTask tid (s.live ++ spawnEntries s sp), w',
                s.nextId + sp.length⟩ = gTotal s := hg'
            refine ⟨?_, ?_, ?_⟩
            · show regM w' = _
              rw [hM, hreg]
              exact hGT.symm
            · rw [show gTotal ⟨delTask tid (s.live ++ spawnEntries s sp), w',
                s.nextId + sp.length⟩ = gTotal s from hGT]
              exact hnodup
            · intro u hu
              rw [show gTotal ⟨delTask tid (s.live ++ spawnEntries s sp), w',
                s.nextId + sp.length⟩ = gTotal s from hGT] at hu
              exact lt_of_lt_of_le (hfresh u hu) hnext
          · exact absurd hnew (by simp)
          · rw [hsome] at hg'
            simp only [optM] at hg'
            have hGT : gTotal ⟨delTask tid (s.live ++ spawnEntries s sp), w',
                s.nextId + sp.length⟩ + {u} = gTotal s := hg'
            refine ⟨?_, ?_, ?_⟩
            · show regM w' = _
              rw [hM, hreg, ← hGT, add_comm, Multiset.singleton_add,
                Multiset.erase_cons_head]
            · refine Multiset.nodup_of_le ?_ hnodup
              rw [← hGT]
              exact Multiset.le_add_right _ _
            · intro v hv
              have hvin : v ∈ gTotal s := by
                rw [← hGT]
                exact Multiset.mem_add.mpr (Or.inl hv)
              exact lt_of_lt_of_le (hfresh v hvin) hnext

/-- The whole scheduler pass preserves the registry invariant. -/
theorem runPass_registry : ∀ (snapshot : List Nat) (s : Sched), RegistryInv s →
    RegistryInv (runPass snapshot s).sched := by
  intro snapshot
  induction snapshot with
  | nil => intro s h; exact h
  | cons tid rest ih =>
      intro s h
      show RegistryInv (runPass rest (resumeOne tid s).sched).sched
      exact ih _ (resumeOne_registry tid s h)

/-- The example scheduler used to witness the registry-invariant theorem: a
spaceship, the orbit filler, one fallen garbage coroutine owning obstacle 0,
and one garbage coroutine spawned last tick that has not started yet. -/
def exampleSchedC2 : Sched :=
  ⟨[(0, .shipLoop 5 5 0 0 0), (1, .orbitLoop 3),
    (2, .garbageLoop 0 2 4 2 2 (1/2)), (3, .garbageBegin 7 1 2 (1/2))],
   ⟨20, 12, [⟨0, 2, 4, 2, 2⟩], [], 1962, 1, [], [(6, 2, 2)], [(2, 3)], (3, 8)⟩, 4⟩

/-- The example scheduler used to refute the claim as stated: the orbit filler
is about to spawn a garbage coroutine; at the following tick boundary the
spawned coroutine is live but has not yet registered its obstacle. -/
def exampleSchedOrbit : Sched :=
  ⟨[(0, .orbitBegin)], ⟨20, 12, [], [], 1962, 0, [], [(6, 2, 2)], [(2, 3)], (3, 8)⟩, 1⟩

/-- C2 (amended).  Obstacle-registry protocol of `fly_garbage` (lines
144-170): (i) a tick of the scheduler preserves the invariant that the
registry holds exactly one obstacle per *started* live garbage-faller task —
same identity multiset, no duplicates, no leaks (a garbage coroutine spawned
during a tick is live but registers its obstacle only on its first resume, the
following tick); (ii) on its first resume a garbage coroutine appends exactly
its own fresh obstacle; (iii) on a bottom exit and (iv) at the end of its
explosion, the `finally` block removes exactly its own obstacle and the
coroutine completes. -/
theorem garbage_registry_spec :
    (∀ s : Sched, RegistryInv s → RegistryInv (runTick s).sched)
    ∧ (∀ (column : Int) (fr fc : Nat) (sp : ℚ) (w : World), 0 < w.rows →
        (resume (.garbageBegin column fr fc sp) w).world.obstacles
          = w.obstacles ++ [⟨w.nextUid, 0, ((min (max column 0) (w.cols - 1) : Int) : ℚ), fr, fc⟩])
    ∧ (∀ (uid : Nat) (row col : ℚ) (fr fc : Nat) (sp : ℚ) (w : World),
        uid ∉ w.obstacles_in_last_collisions → ¬(row + sp < ((w.rows : Int) : ℚ)) →
        (resume (.garbageLoop uid row col fr fc sp) w).world.obstacles
            = w.obstacles.eraseP (fun o => o.uid == uid)
          ∧ (resume (.garbageLoop uid row col fr fc sp) w).task = none)
    ∧ (∀ (uid : Nat) (crow ccol : ℚ) (w : World),
        (resume (.garbageBoom uid 1 crow ccol) w).world.obstacles
            = w.obstacles.eraseP (fun o => o.uid == uid)
          ∧ (resume (.garbageBoom uid 1 crow ccol) w).task = none) := by
  refine ⟨?_, ?_, ?_, ?_⟩
  · intro s h
    show RegistryInv (runPass (ids s) s).sched
    exact runPass_registry (ids s) s h
  · intro column fr fc sp w hr
    simp [resume, hr]
  · intro uid row col fr fc sp w hhit hrow
    constructor <;> simp [resume, hhit, hrow]
  · intro uid crow ccol w
    constructor <;> simp [resume]

/-- Witness for `garbage_registry_spec` at a concrete scheduler: the registry
invariant survives the tick, and a garbage coroutine past the bottom row exits. -/
theorem garbage_registry_witness :
    RegistryInv (runTick exampleSchedC2).sched
    ∧ (resume (.garbageLoop 5 20 4 2 2 (1/2)) exampleSchedC2.world).task = none := by
  refine ⟨garbage_registry_spec.1 exampleSchedC2 (by decide), ?_⟩
  exact (garbage_registry_spec.2.2.1 5 20 4 2 2 (1/2) exampleSchedC2.world
    (by decide) (by norm_num [exampleSchedC2])).2

/-- C2, as stated, is false: at the tick boundary after `fill_orbit_with_garbage`
spawns a `fly_garbage` coroutine, that coroutine is live in the scheduler's
collection but has not run yet, so the registry (empty) does not hold one
obstacle per live garbage-faller task (one). -/
theorem garbage_registry_counterexample :
    ((runTick exampleSchedOrbit).sched.live.filter (fun p => isGarbageTask p.2)).length = 1
    ∧ (runTick exampleSchedOrbit).sched.world.obstacles = [] := by
  decide

/-- The world used to refute C3 as stated: an obstacle overlapping the
spaceship's bounding box, with no projectile anywhere. -/
def exampleWorldC3 : World :=
  ⟨20, 12, [⟨7, 5, 5, 2, 2⟩], [], 1962, 8, [], [], [(2, 3)], (3, 8)⟩

/-- C3 (amended).  Protocol of `obstacles_in_last_collisions`: (i) a
resumption either leaves the hit-record list unchanged, or appends the
identity of one registered obstacle *struck by the appender* — a projectile
(`draw_fire`, line 195) whose updated position overlaps that obstacle's box,
or the spaceship controller (`run_spaceship`, line 246) whose current
bounding box overlaps it — completing that tick, or removes one occurrence of
the resumed garbage-faller task's *own* obstacle identity; (ii) a
garbage-faller finding its identity recorded consumes the record (one
occurrence) and moves into its explosion, after which (iii) its explosion
states never touch the record list again — so each record is consumed at
most once, and only by the struck obstacle's own task. -/
theorem hit_records_spec :
    (∀ (st : TaskState) (w : World),
      ((resume st w).world.obstacles_in_last_collisions = w.obstacles_in_last_collisions)
      ∨ (∃ o, o ∈ w.obstacles
          ∧ (resume st w).world.obstacles_in_last_collisions
              = w.obstacles_in_last_collisions ++ [o.uid]
          ∧ (resume st w).task = none
          ∧ ((∃ frow fcol frs fcs,
                (st = .fireAimed frow fcol frs fcs ∨ st = .fireLoop frow fcol frs fcs)
                ∧ has_collision o (frow + frs) (fcol + fcs) 1 1 = true)
             ∨ (∃ srow scol srs scs idx, st = .shipLoop srow scol srs scs idx
                ∧ has_collision o srow scol
                    (shipFrameSize w idx).1 (shipFrameSize w idx).2 = true)))
      ∨ (∃ u, garbUid st = some u
          ∧ (resume st w).world.obstacles_in_last_collisions
              = w.obstacles_in_last_collisions.erase u))
    ∧ (∀ (uid : Nat) (row col : ℚ) (fr fc : Nat) (sp : ℚ) (w : World),
        uid ∈ w.obstacles_in_last_collisions →
        (resume (.garbageLoop uid row col fr fc sp) w).world.obstacles_in_last_collisions
            = w.obstacles_in_last_collisions.erase uid
        ∧ (resume (.garbageLoop uid row col fr fc sp) w).task
            = some (.garbageBoom uid EXPLOSION_TICS
                (row + sp + ((fr / 2 : Nat) : ℚ)) (col + ((fc / 2 : Nat) : ℚ))))
    ∧ (∀ (uid pending : Nat) (crow ccol : ℚ) (w : World),
        (resume (.garbageBoom uid pending crow ccol) w).world.obstacles_in_last_collisions
          = w.obstacles_in_last_collisions) := by
  refine ⟨?_, ?_, ?_⟩
  · intro st w
    cases st with
    | starBegin row col sym offset =>
        by_cases h : offset = 0 <;> simp [resume, h]
    | starLoop row col sym pending phase =>
        by_cases h : pending ≤ 1 <;> simp [resume, h]
    | captionBegin => simp [resume]
    | captionLoop col len => simp [resume]
    | yearBegin tpy =>
        by_cases h : tpy = 0 <;> simp [resume, h]
    | yearLoop tpy pending =>
        by_cases h : pending ≤ 1 <;> by_cases h0 : tpy = 0 <;> simp [resume, h, h0]
    | orbitBegin =>
        cases hd : get_garbage_delay_tics w.year <;>
          simp [resume, hd, popSpawnChoice] <;> cases w.spawnChoices <;> simp
    | orbitLoop pending =>
        by_cases h : pending ≤ 1
        · cases hd : get_garbage_delay_tics w.year <;>
            simp [resume, h, hd, popSpawnChoice] <;> cases w.spawnChoices <;> simp
        · simp [resume, h]
    | garbageBegin column fr fc sp =>
        by_cases h : 0 < w.rows <;> simp [resume, h]
    | garbageLoop uid row column fr fc sp =>
        by_cases hhit : uid ∈ w.obstacles_in_last_collisions
        · refine Or.inr (Or.inr ⟨uid, rfl, ?_⟩)
          simp [resume, hhit]
        · by_cases hrow : row + sp < ((w.rows : Int) : ℚ) <;>
            simp [resume, hhit, hrow]
    | garbageBoom uid pending crow ccol =>
        by_cases h : pending ≤ 1 <;> simp [resume, h]
    | fireBegin row col rs cs => simp [resume]
    | fireCharged row col rs cs => simp [resume]
    | fireAimed row col rs cs =>
        by_cases hb : 0 < row + rs ∧ row + rs < ((w.rows - BORDER_LENGTH : Int) : ℚ)
            ∧ 0 < col + cs ∧ col + cs < ((w.cols - BORDER_LENGTH : Int) : ℚ)
        · cases hf : w.obstacles.find? (fun o => has_collision o (row + rs) (col + cs) 1 1) with
          | some o =>
              refine Or.inr (Or.inl ⟨o, List.mem_of_find?_eq_some hf, ?_, ?_,
                Or.inl ⟨row, col, rs, cs, Or.inl rfl, by simpa using List.find?_some hf⟩⟩)
              · simp only [resume, fireCheck, if_pos hb, hf]
              · simp only [resume, fireCheck, if_pos hb, hf]
          | none =>
              simp only [resume, fireCheck, if_pos hb, hf]
              simp
        · simp only [resume, fireCheck, if_neg hb]
          simp
    | fireLoop row col rs cs =>
        by_cases hb : 0 < row + rs ∧ row + rs < ((w.rows - BORDER_LENGTH : Int) : ℚ)
            ∧ 0 < col + cs ∧ col + cs < ((w.cols - BORDER_LENGTH : Int) : ℚ)
        · cases hf : w.obstacles.find? (fun o => has_collision o (row + rs) (col + cs) 1 1) with
          | some o =>
              refine Or.inr (Or.inl ⟨o, List.mem_of_find?_eq_some hf, ?_, ?_,
                Or.inl ⟨row, col, rs, cs, Or.inr rfl, by simpa using List.find?_some hf⟩⟩)
              · simp only [resume, fireCheck, if_pos hb, hf]
              · simp only [resume, fireCheck, if_pos hb, hf]
          | none =>
              simp only [resume, fireCheck, if_pos hb, hf]
              simp
        · simp only [resume, fireCheck, if_neg hb]
          simp
    | shipBegin row col =>
        exact Or.inl (shipBody_frame row col 0 0 0 w).2.1
    | shipLoop row col rs cs idx =>
        simp only [resume]
        cases hf : w.obstacles.find? (fun o => has_collision o row col
            (shipFrameSize w idx).1 (shipFrameSize w idx).2) with
        | some o =>
            refine Or.inr (Or.inl ⟨o, List.mem_of_find?_eq_some hf, ?_, ?_,
              Or.inr ⟨row, col, rs, cs, idx, rfl, by simpa using List.find?_some hf⟩⟩)
            · simp [hf]
            · simp [hf]
        | none =>
            simp only [hf]
            exact Or.inl (shipBody_frame row col rs cs (idx + 1) w).2.1
    | gameoverBegin => simp [resume]
    | gameoverLoop row col => simp [resume]
  · intro uid row col fr fc sp w hhit
    constructor <;> simp [resume, hhit]
  · intro uid pending crow ccol w
    by_cases h : pending ≤ 1 <;> simp [resume, h]

/-- Witness for `hit_records_spec` at concrete inputs: the garbage-faller
whose identity is recorded consumes the record and explodes. -/
theorem hit_records_witness :
    (resume (.garbageLoop 7 5 5 2 2 (1/2)) (World.mk 20 12 [⟨7, 5, 5, 2, 2⟩] [7] 1962 8
        [] [] [(2, 3)] (3, 8))).world.obstacles_in_last_collisions = [] := by
  have h := (hit_records_spec.2.1 7 5 5 2 2 (1/2) (World.mk 20 12 [⟨7, 5, 5, 2, 2⟩] [7] 1962 8
      [] [] [(2, 3)] (3, 8)) (by decide)).1
  rw [h]
  decide

/-- C3, as stated, is false: the spaceship controller (not a projectile task)
also appends to `obstacles_in_last_collisions` when it collides with an
obstacle (`run_spaceship`, line 246). -/
theorem hit_records_counterexample :
    (resume (.shipLoop 5 5 0 0 0) exampleWorldC3).world.obstacles_in_last_collisions = [7]
    ∧ isFireTask (.shipLoop 5 5 0 0 0) = false := by
  constructor
  · with_unfolding_all rfl
  · rfl

/-- The world used for the projectile claims: one obstacle covering rows
4-6 and columns 4-6 of a 20x12 canvas. -/
def exampleWorldC4 : World :=
  ⟨20, 12, [⟨3, 4, 4, 3, 3⟩], [], 1962, 4, [], [], [(2, 3)], (3, 8)⟩

/-- C4 (amended).  A movement-phase tick of `draw_fire` (lines 192-201), in
which the position has already been advanced by the velocity: if the updated
position is inside the playfield bounds and the registry scan finds a
colliding obstacle, exactly one hit record — that obstacle's identity — is
appended, the coroutine completes that tick, and its only effect is erasing
the previously drawn glyph (no new glyph is drawn); if the updated position
leaves the playfield bounds, the coroutine completes without recording any
hit.  (During the initial two-tick spark/flash phase the overlap is not
checked; see the counterexample.) -/
theorem projectile_hit_spec (row col rows_speed columns_speed : ℚ) (w : World) :
    ((0 < row + rows_speed ∧ row + rows_speed < ((w.rows - BORDER_LENGTH : Int) : ℚ)
        ∧ 0 < col + columns_speed ∧ col + columns_speed < ((w.cols - BORDER_LENGTH : Int) : ℚ)) →
      ∀ o, w.obstacles.find? (fun q =>
          has_collision q (row + rows_speed) (col + columns_speed) 1 1) = some o →
        (resume (.fireLoop row col rows_speed columns_speed) w).world.obstacles_in_last_collisions
            = w.obstacles_in_last_collisions ++ [o.uid]
        ∧ (resume (.fireLoop row col rows_speed columns_speed) w).task = none
        ∧ (resume (.fireLoop row col rows_speed columns_speed) w).effects
            = [Effect.drawChar row col ' '])
    ∧ (¬(0 < row + rows_speed ∧ row + rows_speed < ((w.rows - BORDER_LENGTH : Int) : ℚ)
        ∧ 0 < col + columns_speed ∧ col + columns_speed < ((w.cols - BORDER_LENGTH : Int) : ℚ)) →
        (resume (.fireLoop row col rows_speed columns_speed) w).task = none
        ∧ (resume (.fireLoop row col rows_speed columns_speed) w).world.obstacles_in_last_collisions
            = w.obstacles_in_last_collisions
        ∧ (resume (.fireLoop row col rows_speed columns_speed) w).effects
            = [Effect.drawChar row col ' ']) := by
  constructor
  · intro hb o hf
    simp only [resume, fireCheck, if_pos hb, hf]
    simp
  · intro hb
    simp only [resume, fireCheck, if_neg hb]
    simp

/-- Witness for `projectile_hit_spec`: a projectile one step above the
example obstacle records its hit and terminates. -/
theorem projectile_hit_witness :
    (resume (.fireLoop (9/2) 4 (-3/10) 0) exampleWorldC4).task = none
    ∧ (resume (.fireLoop (9/2) 4 (-3/10) 0) exampleWorldC4).world.obstacles_in_last_collisions
        = [3] := by
  have h := (projectile_hit_spec (9/2) 4 (-3/10) 0 exampleWorldC4).1
    (by with_unfolding_all decide) ⟨3, 4, 4, 3, 3⟩ (by with_unfolding_all rfl)
  refine ⟨h.2.1, ?_⟩
  rw [h.1]
  rfl

/-- C4, as stated, is false: on its first (spark) tick a projectile whose
position already overlaps a live obstacle records nothing, does not
terminate, and draws the spark glyph — the overlap check only runs in the
movement phase. -/
theorem projectile_hit_counterexample :
    has_collision ⟨3, 4, 4, 3, 3⟩ 5 5 1 1 = true
    ∧ (⟨3, 4, 4, 3, 3⟩ : Obstacle) ∈ exampleWorldC4.obstacles
    ∧ (resume (.fireBegin 5 5 (-3/10) 0) exampleWorldC4).task
        = some (.fireCharged 5 5 (-3/10) 0)
    ∧ (resume (.fireBegin 5 5 (-3/10) 0) exampleWorldC4).world.obstacles_in_last_collisions = []
    ∧ (resume (.fireBegin 5 5 (-3/10) 0) exampleWorldC4).effects
        = [Effect.drawChar 5 5 '*'] := by
  refine ⟨by with_unfolding_all rfl, by simp [exampleWorldC4], rfl, rfl, rfl⟩

/-- The world used for the spaceship game-over claims: an obstacle overlapping
the spaceship's bounding box. -/
def exampleWorldC5 : World :=
  ⟨20, 12, [⟨7, 5, 5, 2, 2⟩], [], 1962, 8, [], [], [(2, 3)], (3, 8)⟩

/-- The scheduler holding only the spaceship controller about to collide. -/
def exampleSchedC5 : Sched := ⟨[(0, .shipLoop 5 5 0 0 0)], exampleWorldC5, 1⟩

/-- C5 (amended).  Game over protocol of `run_spaceship` (lines 244-248) and
`show_gameover` (lines 251-262): on the tick in which the spaceship's
bounding box overlaps a registered obstacle, the spaceship coroutine records
the obstacle, spawns exactly one `show_gameover` coroutine, and *completes*
(it is removed from the scheduler's collection rather than staying blocked);
the spawned banner redraws itself forever and never completes, so the
scheduler keeps running with the banner in its collection. -/
theorem spaceship_gameover_spec :
    (∀ (row col row_speed column_speed : ℚ) (idx : Nat) (w : World) (o : Obstacle),
      w.obstacles.find? (fun q => has_collision q row col
          (shipFrameSize w idx).1 (shipFrameSize w idx).2) = some o →
      (resume (.shipLoop row col row_speed column_speed idx) w).task = none
      ∧ (resume (.shipLoop row col row_speed column_speed idx) w).spawned
          = [TaskState.gameoverBegin]
      ∧ (resume (.shipLoop row col row_speed column_speed idx) w).world.obstacles_in_last_collisions
          = w.obstacles_in_last_collisions ++ [o.uid])
    ∧ (∀ (w : World) (r c : Int),
        resume (.gameoverLoop r c) w
          = ⟨w, some (.gameoverLoop r c), [], [Effect.drawFrame (r : ℚ) (c : ℚ)]⟩)
    ∧ (∀ w : World, (resume .gameoverBegin w).task
        = some (.gameoverLoop (w.rows / 2 - (w.gameoverFrame.1 : Int) / 2)
                              (w.cols / 2 - (w.gameoverFrame.2 : Int) / 2))
        ∧ (resume .gameoverBegin w).spawned = []) := by
  refine ⟨?_, fun w r c => rfl, fun w => ⟨rfl, rfl⟩⟩
  intro row col row_speed column_speed idx w o hf
  simp only [resume, hf]
  simp

/-- Witness for `spaceship_gameover_spec` at the example collision. -/
theorem spaceship_gameover_witness :
    (resume (.shipLoop 5 5 0 0 0) exampleWorldC5).task = none
    ∧ (resume (.shipLoop 5 5 0 0 0) exampleWorldC5).spawned = [TaskState.gameoverBegin] := by
  have h := spaceship_gameover_spec.1 5 5 0 0 0 exampleWorldC5 ⟨7, 5, 5, 2, 2⟩
    (by with_unfolding_all rfl)
  exact ⟨h.1, h.2.1⟩

/-- C5, as stated, is false: after the collision tick the spaceship coroutine
has *completed* and left the scheduler's collection (it does not stay blocked
in it); only the newly spawned game-over banner remains. -/
theorem spaceship_blocked_counterexample :
    (runTick exampleSchedC5).completed = [0]
    ∧ ids (runTick exampleSchedC5).sched = [1]
    ∧ findTask 1 (runTick exampleSchedC5).sched.live = some TaskState.gameoverBegin := by
  refine ⟨?_, ?_, ?_⟩ <;> with_unfolding_all rfl

/-- The world used for the garbage-column claims: a 10-column canvas whose
border cells are columns 0 and 9. -/
def exampleWorldC6 : World :=
  ⟨20, 10, [], [], 1957, 0, [], [], [(2, 3)], (3, 8)⟩

/-- C6 (amended).  `fly_garbage` (lines 146-148) clamps its column argument to
the *full canvas range* `[0, columns_number - 1]` — which includes the border
columns — before registering its obstacle; it does not exclude border cells. -/
theorem garbage_column_clamp_spec (column : Int) (fr fc : Nat) (sp : ℚ) (w : World)
    (hrows : 0 < w.rows) (hcols : 1 ≤ w.cols) :
    (resume (.garbageBegin column fr fc sp) w).world.obstacles
        = w.obstacles ++ [⟨w.nextUid, 0, ((min (max column 0) (w.cols - 1) : Int) : ℚ), fr, fc⟩]
    ∧ 0 ≤ min (max column 0) (w.cols - 1)
    ∧ min (max column 0) (w.cols - 1) ≤ w.cols - 1 := by
  refine ⟨by simp [resume, hrows], ?_, ?_⟩ <;> omega

/-- Witness for `garbage_column_clamp_spec`: a huge column argument is clamped
to the last canvas column. -/
theorem garbage_column_clamp_witness :
    (resume (.garbageBegin 200 2 2 (1/2)) exampleWorldC6).world.obstacles
      = [⟨0, 0, 9, 2, 2⟩] := by
  have h := (garbage_column_clamp_spec 200 2 2 (1/2) exampleWorldC6
    (by decide) (by decide)).1
  rw [h]
  with_unfolding_all rfl

/-- C6, as stated, is false: the clamp lower bound is column 0, a border cell
(the playfield starts at column `BORDER_LENGTH = 1`), so a negative column
argument registers an obstacle *on* the border. -/
theorem garbage_column_counterexample :
    (resume (.garbageBegin (-5) 2 2 (1/2)) exampleWorldC6).world.obstacles
      = [⟨0, 0, 0, 2, 2⟩]
    ∧ (0 : Int) < BORDER_LENGTH := by
  refine ⟨by with_unfolding_all rfl, by decide⟩

/-- C7.  Clamping of `run_spaceship` (lines 227-233): for *every* incoming
position and velocity (hence for every input/velocity history), provided the
current frame fits in the playfield, the clamped position keeps the ship's
full bounding box inside the playfield — at least `BORDER_LENGTH` from the
top/left and ending by `max_coordinate - BORDER_LENGTH`; and every iteration
of the controller's loop (`shipBody`) suspends at exactly such a clamped
position. -/
theorem ship_clamp_spec :
    (∀ (w : World) (row col row_speed column_speed : ℚ) (szR szC : Nat),
      (szR : ℚ) ≤ ((w.rows : Int) : ℚ) - 2 * (BORDER_LENGTH : ℚ) →
      (szC : ℚ) ≤ ((w.cols : Int) : ℚ) - 2 * (BORDER_LENGTH : ℚ) →
      ((BORDER_LENGTH : ℚ) ≤ (shipClampPos w row col row_speed column_speed szR szC).1
        ∧ (shipClampPos w row col row_speed column_speed szR szC).1 + szR
            ≤ ((w.rows : Int) : ℚ) - (BORDER_LENGTH : ℚ))
      ∧ ((BORDER_LENGTH : ℚ) ≤ (shipClampPos w row col row_speed column_speed szR szC).2
        ∧ (shipClampPos w row col row_speed column_speed szR szC).2 + szC
            ≤ ((w.cols : Int) : ℚ) - (BORDER_LENGTH : ℚ)))
    ∧ (∀ (w : World) (row col row_speed column_speed : ℚ) (idx : Nat),
        ∃ (rs2 cs2 : ℚ) (w1 : World), w1.rows = w.rows ∧ w1.cols = w.cols
        ∧ (shipBody row col row_speed column_speed idx w).task
            = some (.shipLoop
                (shipClampPos w1 row col rs2 cs2
                  (shipFrameSize w idx).1 (shipFrameSize w idx).2).1
                (shipClampPos w1 row col rs2 cs2
                  (shipFrameSize w idx).1 (shipFrameSize w idx).2).2
                rs2 cs2 idx)) := by
  constructor
  · intro w row col row_speed column_speed szR szC hR hC
    unfold shipClampPos
    push_cast at hR hC ⊢
    constructor
    · constructor
      · exact le_min (le_max_right _ _) (by linarith)
      · have h := min_le_right (max (row + row_speed) ((BORDER_LENGTH : Int) : ℚ))
          (((w.rows : ℚ) - (BORDER_LENGTH : Int)) - szR)
        push_cast at h
        linarith
    · constructor
      · exact le_min (le_max_right _ _) (by linarith)
      · have h := min_le_right (max (col + column_speed) ((BORDER_LENGTH : Int) : ℚ))
          (((w.cols : ℚ) - (BORDER_LENGTH : Int)) - szC)
        push_cast at h
        linarith
  · intro w row col row_speed column_speed idx
    obtain ⟨rows, cols, obs, hits, year, nuid, inputs, spawns, frames, gof⟩ := w
    unfold shipBody readControls
    cases inputs <;> dsimp only <;> (try split_ifs) <;> exact ⟨_, _, _, rfl, rfl, rfl⟩

/-- Witness for `ship_clamp_spec`: an extreme position-plus-velocity is
clamped into the playfield of a 20x12 canvas with a 2x3 frame. -/
theorem ship_clamp_witness :
    (BORDER_LENGTH : ℚ) ≤ (shipClampPos (World.mk 20 12 [] [] 1957 0 [] [] [(2, 3)] (3, 8))
        100 (-50) 3 (-3) 2 3).1
    ∧ (shipClampPos (World.mk 20 12 [] [] 1957 0 [] [] [(2, 3)] (3, 8))
        100 (-50) 3 (-3) 2 3).1 + (2 : Nat)
        ≤ (((World.mk 20 12 [] [] 1957 0 [] [] [(2, 3)] (3, 8)).rows : Int) : ℚ)
            - (BORDER_LENGTH : ℚ) :=
  (ship_clamp_spec.1 (World.mk 20 12 [] [] 1957 0 [] [] [(2, 3)] (3, 8))
    100 (-50) 3 (-3) 2 3 (by norm_num [BORDER_LENGTH])
    (by norm_num [BORDER_LENGTH])).1

/-- C8.  `handle_year` (lines 73-78) is the sole writer of the year counter:
any resumption of any coroutine either leaves `year` unchanged or increments
it by exactly one, and a change only happens when the resumed coroutine is the
year clock; the clock waits `tics_per_year` tics (decrementing its pending
count without touching the world) and then performs the single `year += 1`. -/
theorem year_writer_spec :
    (∀ (st : TaskState) (w : World),
      ((resume st w).world.year = w.year ∨ (resume st w).world.year = w.year + 1)
      ∧ ((resume st w).world.year ≠ w.year → isYearTask st = true))
    ∧ (∀ (tpy pending : Nat) (w : World), 1 < pending →
        resume (.yearLoop tpy pending) w
          = ⟨w, some (.yearLoop tpy (pending - 1)), [], []⟩)
    ∧ (∀ (tpy : Nat) (w : World), 0 < tpy →
        (resume (.yearLoop tpy 1) w).world.year = w.year + 1
        ∧ (resume (.yearLoop tpy 1) w).world.obstacles = w.obstacles
        ∧ (resume (.yearLoop tpy 1) w).task = some (.yearLoop tpy tpy)) := by
  refine ⟨?_, ?_, ?_⟩
  · intro st w
    cases st with
    | starBegin row col sym offset =>
        by_cases h : offset = 0 <;> simp [resume, h]
    | starLoop row col sym pending phase =>
        by_cases h : pending ≤ 1 <;> simp [resume, h]
    | captionBegin => simp [resume]
    | captionLoop col len => simp [resume]
    | yearBegin tpy =>
        by_cases h : tpy = 0 <;> simp [resume, h]
    | yearLoop tpy pending =>
        by_cases h : pending ≤ 1 <;> by_cases h0 : tpy = 0 <;>
          simp [resume, h, h0, isYearTask]
    | orbitBegin =>
        cases hd : get_garbage_delay_tics w.year <;>
          simp [resume, hd, popSpawnChoice] <;> cases w.spawnChoices <;> simp
    | orbitLoop pending =>
        by_cases h : pending ≤ 1
        · cases hd : get_garbage_delay_tics w.year <;>
            simp [resume, h, hd, popSpawnChoice] <;> cases w.spawnChoices <;> simp
        · simp [resume, h]
    | garbageBegin column fr fc sp =>
        by_cases h : 0 < w.rows <;> simp [resume, h]
    | garbageLoop uid row column fr fc sp =>
        by_cases hhit : uid ∈ w.obstacles_in_last_collisions
        · simp [resume, hhit]
        · by_cases hrow : row + sp < ((w.rows : Int) : ℚ) <;> simp [resume, hhit, hrow]
    | garbageBoom uid pending crow ccol =>
        by_cases h : pending ≤ 1 <;> simp [resume, h]
    | fireBegin row col rs cs => simp [resume]
    | fireCharged row col rs cs => simp [resume]
    | fireAimed row col rs cs =>
        by_cases hb : 0 < row + rs ∧ row + rs < ((w.rows - BORDER_LENGTH : Int) : ℚ)
            ∧ 0 < col + cs ∧ col + cs < ((w.cols - BORDER_LENGTH : Int) : ℚ)
        · cases hf : w.obstacles.find? (fun o => has_collision o (row + rs) (col + cs) 1 1) <;>
            · simp only [resume, fireCheck, if_pos hb, hf]
              simp
        · simp only [resume, fireCheck, if_neg hb]
          simp
    | fireLoop row col rs cs =>
        by_cases hb : 0 < row + rs ∧ row + rs < ((w.rows - BORDER_LENGTH : Int) : ℚ)
            ∧ 0 < col + cs ∧ col + cs < ((w.cols - BORDER_LENGTH : Int) : ℚ)
        · cases hf : w.obstacles.find? (fun o => has_collision o (row + rs) (col + cs) 1 1) <;>
            · simp only [resume, fireCheck, if_pos hb, hf]
              simp
        · simp only [resume, fireCheck, if_neg hb]
          simp
    | shipBegin row col =>
        have hres : resume (.shipBegin row col) w = shipBody row col 0 0 0 w := rfl
        rw [hres]
        simp [(shipBody_frame row col 0 0 0 w).2.2.1]
    | shipLoop row col rs cs idx =>
        simp only [resume]
        cases hf : w.obstacles.find? (fun o => has_collision o row col
            (shipFrameSize w idx).1 (shipFrameSize w idx).2) with
        | some o => simp [hf]
        | none =>
            simp only [hf]
            simp [(shipBody_frame row col rs cs (idx + 1) w).2.2.1]
    | gameoverBegin => simp [resume]
    | gameoverLoop row col => simp [resume]
  · intro tpy pending w h
    have h1 : ¬(pending ≤ 1) := by omega
    simp [resume, h1]
  · intro tpy w h
    have h1 : ¬(tpy = 0) := by omega
    refine ⟨?_, ?_, ?_⟩ <;> simp [resume, h1]

/-- Witness for `year_writer_spec`: the year clock with one pending tic
increments the year by one and rearms itself. -/
theorem year_writer_witness :
    (resume (.yearLoop 20 1) (World.mk 20 12 [] [] 1957 0 [] [] [(2, 3)] (3, 8))).world.year
      = 1958
    ∧ (resume (.yearLoop 20 1)
        (World.mk 20 12 [] [] 1957 0 [] [] [(2, 3)] (3, 8))).task
      = some (.yearLoop 20 20) := by
  have h := year_writer_spec.2.2 20 (World.mk 20 12 [] [] 1957 0 [] [] [(2, 3)] (3, 8))
    (by decide)
  exact ⟨h.1, h.2.2⟩

/-- C9.  The wait primitive `sleep` (lines 37-40) runs
`for _ in range(tics): await asyncio.sleep(0)`: its trace is exactly `tics`
suspensions — no other effect — and `sleep(0)` suspends zero times. -/
theorem sleep_spec :
    (∀ n : Nat, sleepTrace n = List.replicate n AwaitEv.suspend) ∧ sleepTrace 0 = [] := by
  constructor
  · intro n
    unfold sleepTrace
    rw [List.map_const']
    rw [List.length_range]
  · rfl

theorem find?_first {α : Type} (p : α → Bool) (o : α) (post : List α) :
    ∀ (pre : List α), (∀ q ∈ pre, p q = false) → p o = true →
      (pre ++ o :: post).find? p = some o := by
  intro pre
  induction pre with
  | nil =>
      intro _ ho
      simp [List.find?_cons, ho]
  | cons a rest ih =>
      intro hpre ho
      have ha : p a = false := hpre a (List.mem_cons_self _ _)
      simp only [List.cons_append, List.find?_cons, ha]
      exact ih (fun q hq => hpre q (List.mem_cons_of_mem _ hq)) ho

/-- C10.  `draw_fire`'s registry scan (lines 193-196) iterates `obstacles` in
list order — registration order, since obstacles are appended on registration
and removals keep the relative order — and returns on the *first* collision:
when the projectile's in-bounds position overlaps two or more live obstacles
at once, exactly one hit record is appended, for the earliest overlapping
obstacle in the registry, and the later overlapping obstacles get no record. -/
theorem projectile_first_hit_spec (row col rows_speed columns_speed : ℚ) (w : World)
    (pre post : List Obstacle) (o o2 : Obstacle)
    (hobs : w.obstacles = pre ++ o :: post)
    (hpre : ∀ q ∈ pre, has_collision q (row + rows_speed) (col + columns_speed) 1 1 = false)
    (ho : has_collision o (row + rows_speed) (col + columns_speed) 1 1 = true)
    (ho2 : o2 ∈ post)
    (ho2c : has_collision o2 (row + rows_speed) (col + columns_speed) 1 1 = true)
    (hb : 0 < row + rows_speed ∧ row + rows_speed < ((w.rows - BORDER_LENGTH : Int) : ℚ)
        ∧ 0 < col + columns_speed ∧ col + columns_speed < ((w.cols - BORDER_LENGTH : Int) : ℚ)) :
    (resume (.fireLoop row col rows_speed columns_speed) w).world.obstacles_in_last_collisions
        = w.obstacles_in_last_collisions ++ [o.uid]
    ∧ (resume (.fireLoop row col rows_speed columns_speed) w).task = none := by
  have hf : w.obstacles.find? (fun q =>
      has_collision q (row + rows_speed) (col + columns_speed) 1 1) = some o := by
    rw [hobs]
    exact find?_first _ o post pre hpre ho
  constructor <;>
    · simp only [resume, fireCheck, if_pos hb, hf]
      try simp

/-- Witness for `projectile_first_hit_spec`: two obstacles both overlap the
projectile's position; only the first one in the registry is recorded. -/
theorem projectile_first_hit_witness :
    (resume (.fireLoop (9/2) 5 (-3/10) 0)
        (World.mk 20 12 [⟨3, 4, 4, 3, 3⟩, ⟨4, 4, 5, 2, 2⟩] [] 1962 5 [] [] [(2, 3)]
          (3, 8))).world.obstacles_in_last_collisions = [3] := by
  have h := projectile_first_hit_spec (9/2) 5 (-3/10) 0
    (World.mk 20 12 [⟨3, 4, 4, 3, 3⟩, ⟨4, 4, 5, 2, 2⟩] [] 1962 5 [] [] [(2, 3)] (3, 8))
    [] [⟨4, 4, 5, 2, 2⟩] ⟨3, 4, 4, 3, 3⟩ ⟨4, 4, 5, 2, 2⟩
    rfl (fun q hq => absurd hq (List.not_mem_nil q))
    (by with_unfolding_all rfl) (List.mem_singleton.mpr rfl)
    (by with_unfolding_all rfl) (by with_unfolding_all decide)
  rw [h.1]
  rfl

/-- The scheduler used to witness the tick theorem: a star, the year clock,
and a garbage coroutine that will exit this tick. -/
def exampleSchedC1 : Sched :=
  ⟨[(0, .starLoop 2 3 '*' 5 1), (1, .yearLoop 20 4), (2, .garbageBoom 0 1 7 4)],
   ⟨20, 12, [⟨0, 19, 4, 2, 2⟩], [], 1962, 1, [], [], [(2, 3)], (3, 8)⟩, 3⟩

/-- Witness for `scheduler_tick_spec` at a concrete scheduler. -/
theorem scheduler_tick_witness :
    SchedWF exampleSchedC1 ∧ (runTick exampleSchedC1).resumed = ids exampleSchedC1 :=
  ⟨by decide, (scheduler_tick_spec exampleSchedC1 (by decide)).1⟩

end Starships
